import Mathlib

/-!
Verification of the ingestion-and-provenance core of airnub-prefect-starter.

Shallow embedding of the Python sources:
- `airnub_prefect_starter/common/utils.py` (filename sanitization, hashing)
- `airnub_prefect_starter/core/web_utils.py` (link/canonical extraction)
- `airnub_prefect_starter/core/api_handlers.py` (API fetch and parse)
- `airnub_prefect_starter/core/manifest_models.py` (manifest data model)
- `airnub_prefect_starter/core/file_handlers.py` (download, CAS store)

Pure Python functions become Lean functions on `String`/`List Char`;
machine-level collaborators (the filesystem, the HTTP client, the HTML
parser, `urllib` URL resolution) are modelled explicitly as data so the
control flow of the repository code can be embedded faithfully.
-/

set_option maxRecDepth 40000

namespace AirnubSpec

/-! ## Character classes of `sanitize_filename` (common/utils.py) -/

/-- The character class of the first substitution in `sanitize_filename`
(`re.sub` of one-or-more of whitespace, `-`, `/`, `\`, `&`, `:`, `,`, `|`
by a single `_`); the `\s` class is modelled by its ASCII members. -/
def sepChar (c : Char) : Bool :=
  c = ' ' || c = '\t' || c = '\n' || c = '\r' || c = '\x0b' || c = '\x0c' ||
  c = '-' || c = '/' || c = '\\' || c = '&' || c = ':' || c = ',' || c = '|'

/-- Python `\w` (ASCII model): letters, digits and underscore. -/
def wordChar (c : Char) : Bool := c.isAlphanum || c = '_'

/-- Characters kept by the second substitution of `sanitize_filename`
(complement of the deleted class: word characters, `.`, `-`, `_`). -/
def keepChar (c : Char) : Bool := wordChar c || c = '.' || c = '-' || c = '_'

/-- The class stripped from both ends by `.strip('._- ')`. -/
def stripChar (c : Char) : Bool := c = '.' || c = '_' || c = '-' || c = ' '

/-! ## Regex-substitution primitives -/

/-- `re.sub` of one-or-more repetitions of class `p` by the single character
`r`: the flag records whether the previous character was in the class (a run
already replaced). -/
def collapseRunsAux (p : Char → Bool) (r : Char) : Bool → List Char → List Char
  | _, [] => []
  | inRun, c :: cs =>
    if p c then
      if inRun then collapseRunsAux p r true cs
      else r :: collapseRunsAux p r true cs
    else c :: collapseRunsAux p r false cs

/-- `re.sub(class+, r, l)` starting outside any run. -/
def collapseRuns (p : Char → Bool) (r : Char) (l : List Char) : List Char :=
  collapseRunsAux p r false l

/-- Remove trailing characters satisfying `p` (right half of `str.strip`). -/
def rstripChars (p : Char → Bool) : List Char → List Char
  | [] => []
  | c :: cs =>
    let rest := rstripChars p cs
    if rest.isEmpty && p c then [] else c :: rest

/-- Python `str.strip(chars)`: drop characters of the class from both ends. -/
def stripEnds (p : Char → Bool) (l : List Char) : List Char :=
  rstripChars p (l.dropWhile p)

/-! ## `pathlib.PurePosixPath(...).name` -/

/-- Split a character list on `'/'`. -/
def splitSlash : List Char → List (List Char)
  | [] => [[]]
  | c :: cs =>
    if c = '/' then [] :: splitSlash cs
    else
      match splitSlash cs with
      | [] => [[c]]
      | g :: gs => (c :: g) :: gs

/-- `pathlib.PurePosixPath(s).name` (used as `Path(filename).name` in
`sanitize_filename`): the last path component after the parser drops empty
components and single-dot components. -/
def posixName (l : List Char) : List Char :=
  ((splitSlash l).filter (fun g => !g.isEmpty && g != ['.'])).getLast?.getD []

/-! ## `sanitize_filename` (common/utils.py, lines 46-68) -/

/-- The singleton class of `re.sub(r'_+', '_', ...)`. -/
def undChar (c : Char) : Bool := c = '_'

/-- The singleton class of `re.sub(r'-+', '-', ...)`. -/
def hyphChar (c : Char) : Bool := c = '-'

/-- The body of `sanitize_filename` after the emptiness guard: basename,
the four `re.sub` substitutions, and the final two-sided strip. -/
def sanitizePipeline (l : List Char) : List Char :=
  let n := posixName l
  let s1 := collapseRuns sepChar '_' n
  let s2 := s1.filter keepChar
  let s3 := collapseRuns undChar '_' s2
  let s4 := collapseRuns hyphChar '-' s3
  stripEnds stripChar s4

/-- `sanitize_filename(filename, default_name)` from common/utils.py. -/
def sanitize_filename (filename : String)
    (default_name : String := "downloaded_file") : String :=
  if filename = "" then default_name
  else
    let s5 := sanitizePipeline filename.data
    if s5.isEmpty then default_name else ⟨s5⟩

/-! ## SHA-256

`hashlib.sha256` as called by `generate_sha256_hash_from_bytes`,
`generate_sha256_hash_from_string` and `generate_sha256_for_file` in
common/utils.py, modelled in full (FIPS 180-4) over byte lists. -/

/-- Reduce to a 32-bit word. -/
def w32 (n : Nat) : Nat := n % 4294967296

/-- 32-bit rotate right. -/
def rotr32 (x n : Nat) : Nat := w32 (x / 2 ^ n + x % 2 ^ n * 2 ^ (32 - n))

/-- Logical shift right. -/
def shr32 (x n : Nat) : Nat := x / 2 ^ n

/-- Bitwise complement within 32 bits (exact for `a < 2^32`). -/
def not32 (a : Nat) : Nat := 4294967295 - a

def bigSigma0 (x : Nat) : Nat :=
  (rotr32 x 2) ^^^ (rotr32 x 13) ^^^ (rotr32 x 22)

def bigSigma1 (x : Nat) : Nat :=
  (rotr32 x 6) ^^^ (rotr32 x 11) ^^^ (rotr32 x 25)

def smallSigma0 (x : Nat) : Nat :=
  (rotr32 x 7) ^^^ (rotr32 x 18) ^^^ (shr32 x 3)

def smallSigma1 (x : Nat) : Nat :=
  (rotr32 x 17) ^^^ (rotr32 x 19) ^^^ (shr32 x 10)

def ch32 (e f g : Nat) : Nat := (e &&& f) ^^^ (not32 e &&& g)

def maj32 (a b c : Nat) : Nat := (a &&& b) ^^^ (a &&& c) ^^^ (b &&& c)

/-- Round constants. -/
def sha256K : List Nat :=
  [1116352408, 1899447441, 3049323471, 3921009573, 961987163, 1508970993,
   2453635748, 2870763221, 3624381080, 310598401, 607225278, 1426881987,
   1925078388, 2162078206, 2614888103, 3248222580, 3835390401, 4022224774,
   264347078, 604807628, 770255983, 1249150122, 1555081692, 1996064986,
   2554220882, 2821834349, 2952996808, 3210313671, 3336571891, 3584528711,
   113926993, 338241895, 666307205, 773529912, 1294757372, 1396182291,
   1695183700, 1986661051, 2177026350, 2456956037, 2730485921, 2820302411,
   3259730800, 3345764771, 3516065817, 3600352804, 4094571909, 275423344,
   430227734, 506948616, 659060556, 883997877, 958139571, 1322822218,
   1537002063, 1747873779, 1955562222, 2024104815, 2227730452, 2361852424,
   2428436474, 2756734187, 3204031479, 3329325298]

/-- Initial hash state. -/
def sha256H0 : List Nat :=
  [1779033703, 3144134277, 1013904242, 2773480762,
   1359893119, 2600822924, 528734635, 1541459225]

/-- Append the 0x80 marker, zero padding, and the 64-bit big-endian bit
length. -/
def sha256Pad (msg : List Nat) : List Nat :=
  let len := msg.length
  let bitLen := len * 8
  let padZeros := (119 - len % 64) % 64
  msg ++ [0x80] ++ List.replicate padZeros 0 ++
    [bitLen / 2 ^ 56 % 256, bitLen / 2 ^ 48 % 256, bitLen / 2 ^ 40 % 256,
     bitLen / 2 ^ 32 % 256, bitLen / 2 ^ 24 % 256, bitLen / 2 ^ 16 % 256,
     bitLen / 2 ^ 8 % 256, bitLen % 256]

/-- Split into 64-byte blocks (structural recursion on a fuel bound so the
kernel can evaluate it; every iteration consumes at least one byte, so fuel
`l.length` always suffices). -/
def chunk64Fuel : Nat → List Nat → List (List Nat)
  | 0, _ => []
  | _, [] => []
  | fuel + 1, l => l.take 64 :: chunk64Fuel fuel (l.drop 64)

/-- Split into 64-byte blocks. -/
def chunk64 (l : List Nat) : List (List Nat) := chunk64Fuel l.length l

/-- Big-endian 32-bit words from bytes. -/
def bytesToWords : List Nat → List Nat
  | b0 :: b1 :: b2 :: b3 :: rest =>
      (((b0 * 256 + b1) * 256 + b2) * 256 + b3) :: bytesToWords rest
  | _ => []

/-- One extension step of the message schedule. -/
def extendStep (w : List Nat) : List Nat :=
  let n := w.length
  w ++ [w32 (smallSigma1 (w.getD (n - 2) 0) + w.getD (n - 7) 0 +
    smallSigma0 (w.getD (n - 15) 0) + w.getD (n - 16) 0)]

/-- Extend the schedule until 64 words, with fuel (48 steps are needed from
the 16 initial words; fuel 64 always suffices). -/
def extendTo64Fuel : Nat → List Nat → List Nat
  | 0, w => w
  | fuel + 1, w => if 64 ≤ w.length then w else extendTo64Fuel fuel (extendStep w)

/-- Extend the 16-word message schedule to 64 words. -/
def extendTo64 (w : List Nat) : List Nat := extendTo64Fuel 64 w

/-- The 64-round compression loop over the schedule and round constants. -/
def sha256Compress (h : List Nat) : List Nat → List Nat → List Nat
  | wi :: ws, ki :: ks =>
    match h with
    | [a, b, c, d, e, f, g, hh] =>
      let t1 := w32 (hh + bigSigma1 e + ch32 e f g + ki + wi)
      let t2 := w32 (bigSigma0 a + maj32 a b c)
      sha256Compress [w32 (t1 + t2), a, b, c, w32 (d + t1), e, f, g] ws ks
    | _ => h
  | _, _ => h

/-- Process one 64-byte block. -/
def sha256Block (h : List Nat) (block : List Nat) : List Nat :=
  let ws := extendTo64 (bytesToWords block)
  let h2 := sha256Compress h ws sha256K
  List.zipWith (fun a b => w32 (a + b)) h h2

/-- The eight 32-bit state words of the digest of a byte list. -/
def sha256Words (msg : List Nat) : List Nat :=
  (chunk64 (sha256Pad msg)).foldl sha256Block sha256H0

/-- Lowercase hex digit. -/
def hexDigit (n : Nat) : Char :=
  if n < 10 then Char.ofNat (48 + n) else Char.ofNat (87 + n)

/-- Eight lowercase hex digits of a 32-bit word. -/
def word32ToHex (n : Nat) : List Char :=
  [hexDigit (n / 2 ^ 28 % 16), hexDigit (n / 2 ^ 24 % 16),
   hexDigit (n / 2 ^ 20 % 16), hexDigit (n / 2 ^ 16 % 16),
   hexDigit (n / 2 ^ 12 % 16), hexDigit (n / 2 ^ 8 % 16),
   hexDigit (n / 2 ^ 4 % 16), hexDigit (n % 16)]

/-- `generate_sha256_hash_from_bytes` from common/utils.py:
`hashlib.sha256(content).hexdigest()`. -/
def generate_sha256_hash_from_bytes (content : List Nat) : String :=
  ⟨(sha256Words content).foldr (fun wd acc => word32ToHex wd ++ acc) []⟩

/-- UTF-8 encoding of one character. -/
def utf8Encode (c : Char) : List Nat :=
  let n := c.toNat
  if n < 0x80 then [n]
  else if n < 0x800 then [0xC0 + n / 64, 0x80 + n % 64]
  else if n < 0x10000 then
    [0xE0 + n / 4096, 0x80 + n / 64 % 64, 0x80 + n % 64]
  else
    [0xF0 + n / 262144, 0x80 + n / 4096 % 64, 0x80 + n / 64 % 64,
     0x80 + n % 64]

/-- `generate_sha256_hash_from_string` from common/utils.py: SHA-256 of the
UTF-8 encoding of the string. -/
def generate_sha256_hash_from_string (text_content : String) : String :=
  generate_sha256_hash_from_bytes ((text_content.data.map utf8Encode).flatten)

/-! ## String helpers (Python `str` methods over `List Char`) -/

/-- Python `str.strip()` whitespace class (ASCII members). -/
def pyWhitespace (c : Char) : Bool :=
  c = ' ' || c = '\t' || c = '\n' || c = '\r' || c = '\x0b' || c = '\x0c'

/-- Python `str.strip()` with no arguments. -/
def pyStrip (s : String) : String := ⟨stripEnds pyWhitespace s.data⟩

/-- Is the first list a prefix of the second. -/
def isPrefixChars : List Char → List Char → Bool
  | [], _ => true
  | _ :: _, [] => false
  | a :: as, b :: bs => a == b && isPrefixChars as bs

/-- Python `s.startswith(t)`. -/
def strStartsWith (s t : String) : Bool := isPrefixChars t.data s.data

/-- Code-point lexicographic comparison of character lists (Python string
`<=`). -/
def lexLe : List Char → List Char → Bool
  | [], _ => true
  | _ :: _, [] => false
  | a :: as, b :: bs =>
    if a.toNat < b.toNat then true
    else if b.toNat < a.toNat then false
    else lexLe as bs

/-- Python string comparison `a <= b` (code-point lexicographic). -/
def strLe (a b : String) : Bool := lexLe a.data b.data

/-! ## URL helpers (`urllib.parse`, called by web_utils.py) -/

/-- Characters allowed in a URL scheme (`urllib.parse.scheme_chars`). -/
def schemeChar (c : Char) : Bool :=
  c.isAlpha || c.isDigit || c = '+' || c = '-' || c = '.'

/-- `urllib.parse.urlparse(url).scheme`: the lowercased prefix before the
first `:` when it starts with an ASCII letter and contains only scheme
characters; otherwise the empty string. -/
def urlScheme (url : String) : String :=
  let pre := url.data.takeWhile (fun c => c != ':')
  if pre.length = url.data.length then ""
  else
    match pre with
    | [] => ""
    | c :: _ =>
      if c.isAlpha && pre.all schemeChar then ⟨pre.map Char.toLower⟩ else ""

/-- The `parsed.scheme in ["http", "https"]` test of web_utils.py. -/
def isHttpScheme (u : String) : Bool :=
  urlScheme u = "http" || urlScheme u = "https"

/-- `urllib.parse.uses_relative`: schemes that permit relative resolution. -/
def usesRelative : List String :=
  ["", "ftp", "http", "gopher", "nntp", "imap", "wais", "file", "https",
   "shttp", "mms", "prospero", "rtsp", "rtspu", "sftp", "svn", "svn+ssh",
   "ws", "wss"]

/-- `scheme://netloc` part of an absolute URL: scheme, `://`, then up to the
next `/`. -/
def urlRoot (u : String) : String :=
  let sch := urlScheme u
  let rest := (u.data.dropWhile (fun c => c != ':')).drop 1
  match rest with
  | '/' :: '/' :: r =>
    ⟨sch.data ++ [':', '/', '/'] ++ r.takeWhile (fun c => c != '/')⟩
  | _ => ⟨sch.data ++ [':']⟩

/-- Model of `urllib.parse.urljoin` (the stdlib resolver called by
web_utils.py), adequate for the URL shapes this development exercises: an
empty reference resolves to the base; a reference whose scheme is outside
`uses_relative` (e.g. `mailto:`, `javascript:`) or differs from the base
scheme is returned unchanged; a network-path (`//…`) reference takes the
base scheme; an absolute-path (`/…`) reference replaces the base path; any
other reference is appended to the base directory.  (RFC 3986 dot-segment
removal is not modelled.) -/
def urljoinModel (base url : String) : String :=
  if base = "" then url
  else if url = "" then base
  else
    let sch := urlScheme url
    if sch ≠ "" && !(usesRelative.any (fun x => x = sch)) then url
    else if sch ≠ "" && sch ≠ urlScheme base then url
    else
      let ref : List Char :=
        if sch = "" then url.data
        else (url.data.dropWhile (fun c => c != ':')).drop 1
      match ref with
      | '/' :: '/' :: _ => ⟨(urlScheme base).data ++ [':'] ++ ref⟩
      | '/' :: _ => ⟨(urlRoot base).data ++ ref⟩
      | _ =>
        let root := (urlRoot base).data
        let path := base.data.drop root.length
        let dir := (path.reverse.dropWhile (fun c => c != '/')).reverse
        ⟨root ++ dir ++ ref⟩

/-! ## web_utils.py: `core_parse_links_and_canonical_from_html` -/

/-- The BeautifulSoup view of an HTML document as consumed by
`core_parse_links_and_canonical_from_html`: the `href` value of the first
`<link rel="canonical" href=…>` tag found by `soup.find` (if any; an empty
attribute value is possible), and the `href` values of all `<a href=…>`
tags in document order from `soup.find_all`. -/
structure HtmlDoc where
  canonicalHref : Option String
  anchorHrefs : List String

/-- The result dictionary of `core_parse_links_and_canonical_from_html`. -/
structure ScrapeResult where
  original_url : String
  canonical_url : Option String
  canonical_url_hash_sha256 : Option String
  extracted_links : List String
  status : String
  error_message : Option String

/-- The exclusion test `href.startswith(("#", "mailto:", "javascript:"))`
from web_utils.py line 82. -/
def isExcludedHref (href : String) : Bool :=
  strStartsWith href "#" || strStartsWith href "mailto:" ||
  strStartsWith href "javascript:"

/-- The per-anchor computation of web_utils.py lines 80-86: strip the href,
drop it when empty or excluded, resolve it, keep it only for http/https. -/
def anchorLink (join : String → String → String) (original_page_url : String)
    (a : String) : Option String :=
  let href := pyStrip a
  if href ≠ "" && !isExcludedHref href then
    let absolute := join original_page_url href
    if isHttpScheme absolute then some absolute else none
  else none

/-- The per-anchor rule exactly as claim C6 states it: no exclusion of empty
targets. -/
def specAnchorLink (join : String → String → String)
    (original_page_url : String) (a : String) : Option String :=
  let href := pyStrip a
  if !isExcludedHref href then
    let absolute := join original_page_url href
    if isHttpScheme absolute then some absolute else none
  else none

/-- `core_parse_links_and_canonical_from_html(html_content,
original_page_url)` from core/web_utils.py (lines 34-96).  The HTML text
and its parse are modelled by `Option HtmlDoc` (`none` stands for falsy
`html_content`, yielding `FAILED_NO_HTML`); URL resolution
(`urllib.parse.urljoin`) is passed in as `join`.  The `FAILED_PARSING`
branch (BeautifulSoup itself raising) is an environmental failure outside
this model. -/
def core_parse_links_and_canonical_from_html
    (join : String → String → String) (html : Option HtmlDoc)
    (original_page_url : String) : ScrapeResult :=
  match html with
  | none =>
    { original_url := original_page_url, canonical_url := none,
      canonical_url_hash_sha256 := none, extracted_links := [],
      status := "FAILED_NO_HTML",
      error_message := some "No HTML content provided for parsing." }
  | some doc =>
    let canPair : Option String × Option String :=
      match doc.canonicalHref with
      | some href0 =>
        if href0 ≠ "" then
          let cand := join original_page_url (pyStrip href0)
          if isHttpScheme cand then
            (some cand, some (generate_sha256_hash_from_string cand))
          else (none, none)
        else (some original_page_url,
          some (generate_sha256_hash_from_string original_page_url))
      | none =>
        (some original_page_url,
         some (generate_sha256_hash_from_string original_page_url))
    let links := doc.anchorHrefs.filterMap (anchorLink join original_page_url)
    { original_url := original_page_url,
      canonical_url := canPair.1,
      canonical_url_hash_sha256 := canPair.2,
      extracted_links :=
        List.insertionSort (fun a b => strLe a b = true) links.dedup,
      status := "SUCCESS",
      error_message := none }

/-- The link-extraction rule exactly as claim C6 states it: every anchor
target except fragment-only, `mailto:` and `javascript:` ones is resolved
against the original URL and kept when its scheme is `http`/`https` — with
no exclusion of targets that are empty after stripping. -/
def specExtractedLinks (join : String → String → String) (doc : HtmlDoc)
    (original_page_url : String) : List String :=
  List.insertionSort (fun a b => strLe a b = true)
    (doc.anchorHrefs.filterMap (specAnchorLink join original_page_url)).dedup

/-! ## api_handlers.py -/

/-- Python values appearing in JSON-derived data. -/
inductive PyVal where
  | str (s : String)
  | int (n : Int)
  | bool (b : Bool)
  | pynone
  | list (xs : List PyVal)
  | dict (xs : List (String × PyVal))

/-- Outcome of the HTTP GET and body decode inside
`core_fetch_json_from_api`: a 2xx response with a JSON body, a 2xx response
whose body fails JSON decoding, an HTTP status error raised by
`raise_for_status` (`httpx.HTTPStatusError`), a network/request error
(`httpx.RequestError`), or any other exception escaping the `try` body. -/
inductive ApiOutcome where
  | okJson (v : PyVal)
  | okNotJson
  | httpStatusError
  | requestError
  | otherError

/-- Result of calling a Python function: a normal return or an uncaught
exception. -/
inductive PyOutcome (α : Type) where
  | ret (a : α)
  | raised (e : String)

/-- `core_fetch_json_from_api(url, params)` from core/api_handlers.py
(lines 8-27), as a function of the network outcome.  The module imports
`httpx`, `typing` and `logging` but NOT `json`; therefore, when an exception
that is neither `httpx.HTTPStatusError` nor `httpx.RequestError` propagates
out of the `try` body (in particular the `json.JSONDecodeError` raised by
`response.json()` on a non-JSON body), Python evaluates the third `except`
clause expression `json.JSONDecodeError` and that evaluation raises
`NameError: name 'json' is not defined`, which escapes to the caller; the
final `except Exception` clause is never reached. -/
def core_fetch_json_from_api (outcome : ApiOutcome) :
    PyOutcome (Option PyVal) :=
  match outcome with
  | .okJson v => .ret (some v)
  | .httpStatusError => .ret none
  | .requestError => .ret none
  | .okNotJson => .raised "NameError: name \x27json\x27 is not defined"
  | .otherError => .raised "NameError: name \x27json\x27 is not defined"

/-- Python dict lookup (assoc list with unique keys, insertion order). -/
def lookupKey (d : List (String × PyVal)) (k : String) : Option PyVal :=
  (d.find? (fun p => p.1 = k)).map (fun p => p.2)

/-- Python `k in d`. -/
def containsKey (d : List (String × PyVal)) (k : String) : Bool :=
  (lookupKey d k).isSome

/-- Python dict item assignment `d[k] = v`: replace in place, or append. -/
def dictSet : List (String × PyVal) → String → PyVal → List (String × PyVal)
  | [], k, v => [(k, v)]
  | p :: ps, k, v => if p.1 = k then (k, v) :: ps else p :: dictSet ps k v

/-- `core_parse_api_response_for_demo(response_data, primary_key)` from
core/api_handlers.py (lines 29-56).  The argument is modelled as the parsed
dictionary (an assoc list in insertion order); a `None` or non-dict
argument takes the same guard branch as the empty dict and likewise yields
`None`. -/
def core_parse_api_response_for_demo (response_data : List (String × PyVal))
    (primary_key : String := "fact") : Option (List (String × PyVal)) :=
  if response_data.isEmpty then none
  else
    let base := dictSet [] "data_retrieved" (PyVal.bool true)
    match lookupKey response_data primary_key with
    | some v =>
      let withPrimary := dictSet base primary_key v
      match lookupKey response_data "length" with
      | some len => some (dictSet withPrimary "length" len)
      | none =>
        match lookupKey response_data "activity" with
        | some _ =>
          some (dictSet
            (dictSet withPrimary "activity_type"
              ((lookupKey response_data "type").getD PyVal.pynone))
            "participants"
            ((lookupKey response_data "participants").getD PyVal.pynone))
        | none => some withPrimary
    | none =>
      some (dictSet
        (dictSet base "message"
          (PyVal.str ("Primary key \x27" ++ primary_key ++
            "\x27 not found in response.")))
        "response_snippet" (PyVal.dict (response_data.take 3)))

/-! ## manifest_models.py: `DemoFileManifestEntry` -/

/-- Model of a Python `datetime` value: identified by its naive
`isoformat()` string (the wall-clock fields) together with its UTC offset
in minutes (`none` = naive, as produced by `datetime.utcnow()`). -/
structure PyDateTime where
  naive : String
  offset : Option Int
deriving DecidableEq

/-- Two-digit zero-padded decimal. -/
def pad2 (n : Nat) : String := if n < 10 then "0" ++ toString n else toString n

/-- The `±HH:MM` suffix `datetime.isoformat()` appends for aware values. -/
def offsetSuffix (o : Int) : String :=
  (if o < 0 then "-" else "+") ++ pad2 (o.natAbs / 60) ++ ":" ++
    pad2 (o.natAbs % 60)

/-- `dt.isoformat()`. -/
def pyIsoformat (dt : PyDateTime) : String :=
  match dt.offset with
  | none => dt.naive
  | some o => dt.naive ++ offsetSuffix o

/-- The `json_encoders` datetime entry of `DemoFileManifestEntry`
(manifest_models.py line 41): `lambda dt: dt.isoformat() + "Z"`. -/
def encodeDatetime (dt : PyDateTime) : String := pyIsoformat dt ++ "Z"

/-- Shape check for a naive `isoformat()` string: it contains neither `+`
(the offset separator the encoder can leave behind) nor `Z`.  Coarse model
of the validation pydantic performs on datetime strings, sufficient to
separate the strings arising in this development. -/
def plausibleNaiveIso (s : String) : Bool :=
  !s.data.isEmpty && !s.data.contains '+' && !s.data.contains 'Z'

/-- Pydantic v2 datetime validation of a JSON string (model): a trailing
`Z` after a naive body yields an aware UTC datetime; a plain naive string
yields a naive datetime; a string still containing an offset before the
`Z` — as the encoder produces for aware datetimes — is rejected. -/
def parsePyDateTime (s : String) : Option PyDateTime :=
  if s.data.getLast? = some 'Z' then
    let core : String := ⟨s.data.dropLast⟩
    if plausibleNaiveIso core then some ⟨core, some 0⟩ else none
  else if plausibleNaiveIso s then some ⟨s, none⟩
  else none

/-- Normalization of a timestamp to the UTC `Z` representation (the
comparison the spec prescribes): naive values are taken as UTC, aware
offset-0 values print their wall-clock fields; other offsets (which never
arise here) keep their isoformat. -/
def toZRepr (dt : PyDateTime) : String :=
  match dt.offset with
  | none => dt.naive ++ "Z"
  | some 0 => dt.naive ++ "Z"
  | some _ => pyIsoformat dt

/-- JSON trees (the target of `model_dump_json`, whitespace abstracted). -/
inductive Json where
  | null
  | str (s : String)
  | num (n : Int)
  | jbool (b : Bool)
  | arr (xs : List Json)
  | obj (fields : List (String × Json))

/-- `DemoFileManifestEntry` from core/manifest_models.py (lines 7-43);
`HttpUrl` fields are modelled as strings, defaults as in the source. -/
structure DemoFileManifestEntry where
  data_source_name : String
  original_filename : String
  source_url : String
  source_page_url : Option String := none
  link_title : Option String := none
  content_hash_sha256 : String
  hash_algorithm : String := "sha256"
  worker_storage_path : String
  storage_type : String := "local_cas_demo"
  download_timestamp_utc : PyDateTime
  file_size_bytes : Option Int := none
  content_type : Option String := none
  http_headers : Option (List (String × String)) := none
  manifest_schema_version : String := "1.0.0"
deriving DecidableEq

def optStr : Option String → Json
  | none => Json.null
  | some s => Json.str s

def optInt : Option Int → Json
  | none => Json.null
  | some n => Json.num n

def headersJson : Option (List (String × String)) → Json
  | none => Json.null
  | some hs => Json.obj (hs.map (fun p => (p.1, Json.str p.2)))

/-- `model_dump_json` of a manifest entry (pydantic v2 field order, with
the `json_encoders` datetime override applied), as the JSON tree the
document denotes. -/
def serializeEntry (e : DemoFileManifestEntry) : Json :=
  Json.obj
    [("data_source_name", Json.str e.data_source_name),
     ("original_filename", Json.str e.original_filename),
     ("source_url", Json.str e.source_url),
     ("source_page_url", optStr e.source_page_url),
     ("link_title", optStr e.link_title),
     ("content_hash_sha256", Json.str e.content_hash_sha256),
     ("hash_algorithm", Json.str e.hash_algorithm),
     ("worker_storage_path", Json.str e.worker_storage_path),
     ("storage_type", Json.str e.storage_type),
     ("download_timestamp_utc", Json.str (encodeDatetime e.download_timestamp_utc)),
     ("file_size_bytes", optInt e.file_size_bytes),
     ("content_type", optStr e.content_type),
     ("http_headers", headersJson e.http_headers),
     ("manifest_schema_version", Json.str e.manifest_schema_version)]

def jsonField (j : Json) (k : String) : Option Json :=
  match j with
  | Json.obj fields => (fields.find? (fun p => p.1 = k)).map (fun p => p.2)
  | _ => none

def asStr : Option Json → Option String
  | some (Json.str s) => some s
  | _ => none

def asOptStr : Option Json → Option (Option String)
  | some Json.null => some none
  | some (Json.str s) => some (some s)
  | _ => none

def asOptInt : Option Json → Option (Option Int)
  | some Json.null => some none
  | some (Json.num n) => some (some n)
  | _ => none

/-- All-string-valued object fields. -/
def strPairs : List (String × Json) → Option (List (String × String))
  | [] => some []
  | (k, Json.str v) :: rest => (strPairs rest).map (fun t => (k, v) :: t)
  | _ => none

def asHeaders : Option Json → Option (Option (List (String × String)))
  | some Json.null => some none
  | some (Json.obj fs) => (strPairs fs).map some
  | _ => none

/-- A concrete entry with a naive (UTC-as-naive) timestamp, as the pipeline
constructs them. -/
def demoEntryNaive : DemoFileManifestEntry :=
  { data_source_name := "demo", original_filename := "f.txt",
    source_url := "https://a.test/f.txt", content_hash_sha256 := "00",
    worker_storage_path := "/x/f.txt",
    download_timestamp_utc := ⟨"2024-01-01T00:00:00", none⟩ }

/-- The same entry with an aware UTC (offset `+00:00`) timestamp — both the
result of parsing the serialized naive entry back, and a legitimate entry
one can construct directly. -/
def demoEntryAware : DemoFileManifestEntry :=
  { demoEntryNaive with
    download_timestamp_utc := ⟨"2024-01-01T00:00:00", some 0⟩ }

/-- `DemoFileManifestEntry.model_validate_json` (model): read each field,
validating its type and parsing the datetime string; any invalid field
rejects the whole document. -/
def parseEntry (j : Json) : Option DemoFileManifestEntry := do
  let dsn ← asStr (jsonField j "data_source_name")
  let ofn ← asStr (jsonField j "original_filename")
  let su ← asStr (jsonField j "source_url")
  let spu ← asOptStr (jsonField j "source_page_url")
  let lt ← asOptStr (jsonField j "link_title")
  let ch ← asStr (jsonField j "content_hash_sha256")
  let ha ← asStr (jsonField j "hash_algorithm")
  let wsp ← asStr (jsonField j "worker_storage_path")
  let st ← asStr (jsonField j "storage_type")
  let tsStr ← asStr (jsonField j "download_timestamp_utc")
  let ts ← parsePyDateTime tsStr
  let fsb ← asOptInt (jsonField j "file_size_bytes")
  let ct ← asOptStr (jsonField j "content_type")
  let hh ← asHeaders (jsonField j "http_headers")
  let msv ← asStr (jsonField j "manifest_schema_version")
  pure { data_source_name := dsn, original_filename := ofn,
         source_url := su, source_page_url := spu, link_title := lt,
         content_hash_sha256 := ch, hash_algorithm := ha,
         worker_storage_path := wsp, storage_type := st,
         download_timestamp_utc := ts, file_size_bytes := fsb,
         content_type := ct, http_headers := hh,
         manifest_schema_version := msv }

/-! ## file_handlers.py

The filesystem, the HTTP stream and the OS temporary-file name are the
collaborators of this module; they are modelled as explicit data so its
control flow can be embedded exactly. -/

/-- Filesystem paths as segment lists. -/
abbrev Pathv := List String

/-- File contents: raw bytes, or a JSON document (written manifests). -/
inductive FileContent where
  | bytes (bs : List Nat)
  | jsonDoc (j : Json)

/-- The filesystem visible to file_handlers.py: regular files with their
contents, and the set of existing directories. -/
structure FS where
  files : List (Pathv × FileContent)
  dirs : List Pathv

def emptyFS : FS := { files := [], dirs := [] }

def fileAt (fs : FS) (p : Pathv) : Option FileContent :=
  (fs.files.find? (fun q => q.1 = p)).map (fun q => q.2)

def isFile (fs : FS) (p : Pathv) : Bool := (fileAt fs p).isSome

def fileBytes (fs : FS) (p : Pathv) : Option (List Nat) :=
  match fileAt fs p with
  | some (FileContent.bytes bs) => some bs
  | _ => none

/-- Create or overwrite a regular file. -/
def setFile (fs : FS) (p : Pathv) (c : FileContent) : FS :=
  { fs with files := (p, c) :: fs.files.filter (fun q => !(q.1 = p)) }

/-- `unlink(missing_ok=True)`. -/
def removeFile (fs : FS) (p : Pathv) : FS :=
  { fs with files := fs.files.filter (fun q => !(q.1 = p)) }

def isDir (fs : FS) (p : Pathv) : Bool := fs.dirs.any (fun q => q = p)

/-- All non-empty prefixes of a path. -/
def pathPrefixes : Pathv → List Pathv
  | [] => []
  | s :: rest => [s] :: (pathPrefixes rest).map (fun q => s :: q)

/-- Record the given directories as existing. -/
def addDirs (fs : FS) (ds : List Pathv) : FS := { fs with dirs := ds ++ fs.dirs }

/-- `Path.mkdir(parents=True, exist_ok=True)`: idempotent on existing
directories; still raises when a regular file occupies the directory path
or one of its parents. -/
def mkdirParents (fs : FS) (p : Pathv) : Option FS :=
  if (pathPrefixes p).any (fun q => isFile fs q) then none
  else some (addDirs fs (pathPrefixes p))

/-- `shutil.move(src, dst)` on POSIX: fails if `src` is not a regular file;
when `dst` names an existing directory the source moves inside it; an
existing regular file at `dst` is atomically replaced (`os.rename`). -/
def moveFile (fs : FS) (src dst : Pathv) : Option FS :=
  match fileAt fs src with
  | none => none
  | some c =>
    let realDst := if isDir fs dst then dst ++ [src.getLast?.getD ""] else dst
    some (setFile (removeFile fs src) realDst c)

/-- `open(path, "w")` followed by a full write: create or truncate. -/
def writeFile (fs : FS) (p : Pathv) (c : FileContent) : FS := setFile fs p c

/-- `generate_sha256_for_file` from common/utils.py over the modelled
filesystem: `None` when the path is not a regular (byte) file, else the
SHA-256 hex digest of its contents.  (The `IOError` branch is an
environmental failure outside this model; manifest documents are modelled
at the JSON level and never hashed by the code.) -/
def generate_sha256_for_file (fs : FS) (file_path : Pathv) : Option String :=
  match fileBytes fs file_path with
  | none => none
  | some bs => some (generate_sha256_hash_from_bytes bs)

/-- Fault injection for `_store_file_and_its_manifest_locally`: whether the
manifest `open`/`write` (file_handlers.py lines 99-100) raises, e.g. on a
full disk. -/
structure StoreFaults where
  manifestWriteFails : Bool

def noFaults : StoreFaults := { manifestWriteFails := false }

def manifestWriteFault : StoreFaults := { manifestWriteFails := true }

def pathToString (p : Pathv) : String := String.intercalate "/" p

/-- `_store_file_and_its_manifest_locally(...)` from core/file_handlers.py
(lines 61-113), over the modelled filesystem with injected write faults.
Control flow mirrors the source exactly:
* the argument guard (line 74; `Path` objects are always truthy, so only
  the three strings can fail it) unlinks the temp file and returns
  `(None, None)`;
* a missing source file returns `(None, None)` without cleanup (line 79);
* `final_doc_path` is assigned (line 90) BEFORE the move and
  `final_manifest_path` (line 98) BEFORE the manifest write, so the
  `return` at line 113 reached after an exception reports whatever was
  already assigned;
* the `finally` block unlinks the temp file if it still exists. -/
def store_file_and_its_manifest_locally (fs : FS) (fault : StoreFaults)
    (source_temp_file_path : Pathv) (target_cas_base_dir : Pathv)
    (data_source_name_for_path : String) (file_content_hash : String)
    (sanitized_original_filename : String)
    (manifest_model_instance : DemoFileManifestEntry) :
    (Option Pathv × Option Pathv) × FS :=
  if data_source_name_for_path = "" || file_content_hash = "" ||
      sanitized_original_filename = "" then
    ((none, none), removeFile fs source_temp_file_path)
  else if !(isFile fs source_temp_file_path) then ((none, none), fs)
  else
    let cas_content_dir := target_cas_base_dir ++
      [sanitize_filename data_source_name_for_path, file_content_hash]
    match mkdirParents fs cas_content_dir with
    | none => ((none, none), removeFile fs source_temp_file_path)
    | some fs1 =>
      let final_doc_path := cas_content_dir ++ [sanitized_original_filename]
      match moveFile fs1 source_temp_file_path final_doc_path with
      | none =>
        ((some final_doc_path, none), removeFile fs1 source_temp_file_path)
      | some fs2 =>
        let manifest2 := { manifest_model_instance with
          worker_storage_path := pathToString final_doc_path }
        let final_manifest_path := cas_content_dir ++
          [sanitized_original_filename ++ ".manifest.json"]
        if fault.manifestWriteFails then
          ((some final_doc_path, some final_manifest_path),
            removeFile fs2 source_temp_file_path)
        else
          ((some final_doc_path, some final_manifest_path),
            writeFile (removeFile fs2 source_temp_file_path)
              final_manifest_path
              (FileContent.jsonDoc (serializeEntry manifest2)))

/-- One download scenario for `_download_to_temporary_file`: how the remote
host, the network and the OS behave for this URL. -/
structure DownloadScenario where
  /-- `httpx.RequestError` before any response arrives. -/
  connectFails : Bool
  /-- Non-2xx status, so `response.raise_for_status()` raises. -/
  statusError : Bool
  /-- `dict(response.headers)` (httpx lower-cases header names). -/
  headers : List (String × String)
  /-- `Path(urlparse(url).path).name` for the request URL. -/
  urlPathName : String
  /-- Body chunks the stream yields (before any failure). -/
  chunks : List (List Nat)
  /-- The stream raises (connection reset) after yielding `chunks`. -/
  midStreamError : Bool
  /-- The unique token the OS draws for the `NamedTemporaryFile` name. -/
  tempToken : String

/-- Case-insensitive match of a lowercase pattern at the head of a text. -/
def matchesAtHead : List Char → List Char → Bool
  | [], _ => true
  | _ :: _, [] => false
  | p :: ps, t :: ts => (p == t.toLower) && matchesAtHead ps ts

/-- Capture of `"?([^"]+)"?` after `filename=`: optionally skip one double
quote, then take the (non-empty) run of non-quote characters. -/
def cdCapture (l : List Char) : Option String :=
  match l with
  | [] => none
  | c :: cs =>
    let body := if c = '"' then cs else c :: cs
    let captured := body.takeWhile (fun x => x != '"')
    if captured.isEmpty then none else some ⟨captured⟩

/-- `re.search(r'filename="?([^"]+)"?', s, re.IGNORECASE)` (model): first
position where `filename=` matches case-insensitively and the capture is
non-empty. -/
def cdSearch : List Char → Option String
  | [] => none
  | c :: cs =>
    if matchesAtHead "filename=".data (c :: cs) then
      match cdCapture ((c :: cs).drop 9) with
      | some fn => some fn
      | none => cdSearch cs
    else cdSearch cs

/-- The staging path of the `NamedTemporaryFile` (prefix `prefDL_`, random
token, suffix `_{safe filename}`) inside the temp directory. -/
def tempPathOf (token safeName : String) : Pathv :=
  ["tmp", "prefDL_" ++ token ++ "_" ++ safeName]

/-- `_download_to_temporary_file(url)` from core/file_handlers.py (lines
18-59): returns the Python result (`None` on any error — the `except`
blocks only log) together with the staging file left on disk
(`NamedTemporaryFile(delete=False)` holding the bytes written before the
failure; no code path unlinks it inside this function). -/
def download_to_temporary_file (sc : DownloadScenario) :
    Option (Pathv × String × List (String × String) × Nat) ×
      Option (Pathv × List Nat) :=
  if sc.connectFails || sc.statusError then (none, none)
  else
    let content_disposition :=
      (sc.headers.find? (fun p => p.1 = "Content-Disposition")).map
        (fun p => p.2)
    let original_filename :=
      match content_disposition with
      | some cd =>
        match cdSearch cd.data with
        | some fn => fn
        | none => sc.urlPathName
      | none => sc.urlPathName
    let safe_original_filename := sanitize_filename
      (if original_filename ≠ "" then original_filename
       else "unknown_download")
    let temp_file_path := tempPathOf sc.tempToken safe_original_filename
    if sc.midStreamError then
      (none, some (temp_file_path, sc.chunks.flatten))
    else
      (some (temp_file_path, safe_original_filename, sc.headers,
        (sc.chunks.map List.length).sum),
       some (temp_file_path, sc.chunks.flatten))

/-- The `processing_metadata` result dict of
`core_process_scheduled_file_download`, restricted to the fields the claims
concern. -/
structure ProcessingMetadata where
  status : String
  error_message : Option String := none
  original_filename : Option String := none
  content_hash_sha256 : Option String := none
  worker_storage_path : Option String := none
  worker_manifest_path : Option String := none

/-- `core_process_scheduled_file_download(url, data_source_name,
local_cas_target_base_dir)` from core/file_handlers.py (lines 115-190):
download to staging, hash, store into the CAS, and report.  The staging
file the download leaves behind is materialized into the filesystem, which
the hash and store steps then operate on; `now` stands for the ambient
`datetime.utcnow()`. -/
def core_process_scheduled_file_download (sc : DownloadScenario) (fs0 : FS)
    (fault : StoreFaults) (url : String) (data_source_name : String)
    (local_cas_target_base_dir : Pathv) (now : PyDateTime) :
    ProcessingMetadata × FS :=
  let dlPair := download_to_temporary_file sc
  let fs1 := match dlPair.2 with
    | some pb => setFile fs0 pb.1 (FileContent.bytes pb.2)
    | none => fs0
  match dlPair.1 with
  | none =>
    ({ status := "FAILED_DOWNLOAD",
       error_message := some "Download operation failed." }, fs1)
  | some (temp_file_path, original_filename, headers, file_size_bytes) =>
    match generate_sha256_for_file fs1 temp_file_path with
    | none =>
      ({ status := "FAILED_HASHING",
         error_message :=
           some "Could not generate hash for the downloaded file.",
         original_filename := some original_filename },
       removeFile fs1 temp_file_path)
    | some content_hash =>
      let manifest_entry : DemoFileManifestEntry :=
        { data_source_name := data_source_name,
          original_filename := original_filename,
          source_url := url,
          download_timestamp_utc := now,
          content_hash_sha256 := content_hash,
          worker_storage_path := "placeholder",
          file_size_bytes := some (file_size_bytes : Int),
          http_headers := some headers,
          content_type :=
            (headers.find? (fun p => p.1 = "content-type")).map
              (fun p => p.2) }
      let stored := store_file_and_its_manifest_locally fs1 fault
        temp_file_path local_cas_target_base_dir data_source_name
        content_hash original_filename manifest_entry
      if stored.1.1.isNone || stored.1.2.isNone then
        ({ status := "FAILED_STORAGE",
           error_message :=
             some "Local CAS storage or manifest JSON saving failed.",
           original_filename := some original_filename,
           content_hash_sha256 := some content_hash,
           worker_storage_path := stored.1.1.map pathToString }, stored.2)
      else
        ({ status := "SUCCESS",
           original_filename := some original_filename,
           content_hash_sha256 := some content_hash,
           worker_storage_path := stored.1.1.map pathToString,
           worker_manifest_path := stored.1.2.map pathToString }, stored.2)

/-- A streaming download that resets mid-transfer after one 3-byte chunk
was written to the staging file. -/
def midResetScenario : DownloadScenario :=
  { connectFails := false, statusError := false, headers := [],
    urlPathName := "data.bin", chunks := [[1, 2, 3]],
    midStreamError := true, tempToken := "t1" }

/-- A clean streaming download of `content` under URL path name `name`,
with temp-name token `t`. -/
def cleanDownload (content : List Nat) (name t : String) :
    DownloadScenario :=
  { connectFails := false, statusError := false, headers := [],
    urlPathName := name, chunks := [content], midStreamError := false,
    tempToken := t }

/-! ## Invariants of the sanitizer output -/

/-- Characters a sanitized token may contain, as stated by the spec:
letters, digits, `.`, `_`, `-`. -/
def allowedChar (c : Char) : Bool :=
  c.isAlphanum || c = '.' || c = '_' || c = '-'

/-- Characters that can actually appear in a nonempty pipeline output:
kept by the filter and not separators (in particular not `-`). -/
def goodChar (c : Char) : Bool := keepChar c && !sepChar c

/-- No two adjacent underscores. -/
def noDoubleUnd : List Char → Bool
  | [] => true
  | [_] => true
  | a :: b :: rest => !(undChar a && undChar b) && noDoubleUnd (b :: rest)

/-- A filesystem-safe token in the sense of the spec: non-empty, not the
traversal component `..`, and made only of allowed characters. -/
def isSafeToken (t : String) : Bool :=
  !t.data.isEmpty && t != ".." && t.data.all allowedChar

/-- Normal form of a sanitizer-pipeline output: only characters that survive
all passes, no adjacent underscores, and no strippable character at either
end. -/
def normTok (r : List Char) : Prop :=
  (∀ c ∈ r, goodChar c = true) ∧ noDoubleUnd r = true ∧
  (∀ c, r.head? = some c → stripChar c = false) ∧
  (∀ c, r.getLast? = some c → stripChar c = false)

/-- A clean three-byte download used as a concrete scenario. -/
def okScenario : DownloadScenario := cleanDownload [1, 2, 3] "data.bin" "t1"

/-- A fixed naive wall-clock instant for concrete runs. -/
def demoNow : PyDateTime := ⟨"2024-01-01T00:00:00", none⟩

/-! ### Generic lemmas about the substitution primitives -/

theorem collapseRunsAux_mem {p : Char → Bool} {r : Char} :
    ∀ {b : Bool} {l : List Char} {c : Char},
      c ∈ collapseRunsAux p r b l → c = r ∨ (c ∈ l ∧ p c = false) := by
  intro b l
  induction l generalizing b with
  | nil => intro c h; simp [collapseRunsAux] at h
  | cons a as ih =>
    intro c h
    simp only [collapseRunsAux] at h
    by_cases hp : p a
    · simp only [hp, if_true] at h
      cases b with
      | true =>
        rcases ih h with h1 | h2
        · exact Or.inl h1
        · exact Or.inr ⟨List.mem_cons_of_mem _ h2.1, h2.2⟩
      | false =>
        rcases List.mem_cons.mp h with h1 | h1
        · exact Or.inl h1
        · rcases ih h1 with h2 | h3
          · exact Or.inl h2
          · exact Or.inr ⟨List.mem_cons_of_mem _ h3.1, h3.2⟩
    · simp only [hp, if_false] at h
      rcases List.mem_cons.mp h with h1 | h1
      · subst h1
        exact Or.inr ⟨List.mem_cons_self _ _, by simp [hp]⟩
      · rcases ih h1 with h2 | h3
        · exact Or.inl h2
        · exact Or.inr ⟨List.mem_cons_of_mem _ h3.1, h3.2⟩

/-- If no character of `l` is in the class, the substitution is the
identity. -/
theorem collapseRunsAux_id {p : Char → Bool} {r : Char} :
    ∀ {b : Bool} {l : List Char}, (∀ c ∈ l, p c = false) →
      collapseRunsAux p r b l = l := by
  intro b l
  induction l generalizing b with
  | nil => intro _; rfl
  | cons a as ih =>
    intro h
    have ha : p a = false := h a (List.mem_cons_self _ _)
    simp only [collapseRunsAux, ha, if_false]
    exact congrArg (a :: ·) (ih fun c hc => h c (List.mem_cons_of_mem _ hc))

/-- The collapsing pass, entered with the flag set, never starts its output
with a character of the class. -/
theorem collapseRunsAux_head_true {p : Char → Bool} {r : Char} :
    ∀ {l : List Char} {c : Char},
      (collapseRunsAux p r true l).head? = some c → p c = false := by
  intro l
  induction l with
  | nil => intro c h; simp [collapseRunsAux] at h
  | cons a as ih =>
    intro c h
    simp only [collapseRunsAux] at h
    cases hp : p a with
    | true => simp only [hp, if_true] at h; exact ih h
    | false =>
      simp only [hp, Bool.false_eq_true, if_false, List.head?_cons,
        Option.some.injEq] at h
      subst h; exact hp

theorem noDoubleUnd_tail : ∀ {a : Char} {l : List Char},
    noDoubleUnd (a :: l) = true → noDoubleUnd l = true := by
  intro a l h
  cases l with
  | nil => rfl
  | cons b bs =>
    simp only [noDoubleUnd, Bool.and_eq_true] at h
    exact h.2

theorem noDoubleUnd_pair : ∀ {a b : Char} {l : List Char},
    noDoubleUnd (a :: b :: l) = true → (undChar a && undChar b) = false := by
  intro a b l h
  simp only [noDoubleUnd, Bool.and_eq_true, Bool.not_eq_true'] at h
  exact h.1

theorem noDoubleUnd_cons {a : Char} {l : List Char} (h1 : noDoubleUnd l = true)
    (h2 : ∀ c, l.head? = some c → (undChar a && undChar c) = false) :
    noDoubleUnd (a :: l) = true := by
  cases l with
  | nil => rfl
  | cons b bs =>
    have hb := h2 b rfl
    simp only [noDoubleUnd, Bool.and_eq_true, Bool.not_eq_true']
    exact ⟨hb, h1⟩

/-- The underscore-collapsing pass always yields a list without adjacent
underscores. -/
theorem collapseUnd_noDouble :
    ∀ (b : Bool) (l : List Char),
      noDoubleUnd (collapseRunsAux undChar '_' b l) = true := by
  intro b l
  induction l generalizing b with
  | nil => rfl
  | cons a as ih =>
    cases hp : undChar a with
    | true =>
      cases b with
      | true =>
        simp only [collapseRunsAux, hp, if_true]
        exact ih true
      | false =>
        simp only [collapseRunsAux, hp, if_true]
        refine noDoubleUnd_cons (ih true) ?_
        intro c hc
        have := collapseRunsAux_head_true hc
        simp [this]
    | false =>
      simp only [collapseRunsAux, hp, Bool.false_eq_true, if_false]
      refine noDoubleUnd_cons (ih false) ?_
      intro c hc
      simp [hp]

/-- On a list without adjacent underscores the underscore-collapsing pass is
the identity. -/
theorem collapseUnd_id : ∀ {l : List Char}, noDoubleUnd l = true →
    collapseRunsAux undChar '_' false l = l := by
  intro l
  induction l with
  | nil => intro _; rfl
  | cons a as ih =>
    intro h
    cases hp : undChar a with
    | false =>
      simp only [collapseRunsAux, hp, Bool.false_eq_true, if_false]
      exact congrArg (a :: ·) (ih (noDoubleUnd_tail h))
    | true =>
      have ha : a = '_' := of_decide_eq_true hp
      subst ha
      cases as with
      | nil => rfl
      | cons b bs =>
        have hpair := noDoubleUnd_pair h
        rw [hp] at hpair
        simp only [Bool.true_and] at hpair
        have htail := ih (noDoubleUnd_tail h)
        have hbs : collapseRunsAux undChar '_' false bs = bs := by
          have h2 := htail
          simp only [collapseRunsAux, hpair, Bool.false_eq_true, if_false,
            List.cons.injEq] at h2
          exact h2.2
        simp [collapseRunsAux, hp, hpair, hbs]

/-! ### Lemmas about `rstripChars`, `dropWhile`, `stripEnds` -/

/-- One-step unfolding of `rstripChars` on a cons cell. -/
theorem rstripChars_cons (p : Char → Bool) (a : Char) (as : List Char) :
    rstripChars p (a :: as) =
      if ((rstripChars p as).isEmpty && p a) = true then []
      else a :: rstripChars p as := rfl

theorem rstripChars_mem {p : Char → Bool} :
    ∀ {l : List Char} {c : Char}, c ∈ rstripChars p l → c ∈ l := by
  intro l
  induction l with
  | nil => intro c h; simp [rstripChars] at h
  | cons a as ih =>
    intro c h
    rw [rstripChars_cons] at h
    by_cases hc : ((rstripChars p as).isEmpty && p a) = true
    · rw [if_pos hc] at h; simp at h
    · rw [if_neg hc] at h
      rcases List.mem_cons.mp h with h1 | h1
      · exact h1 ▸ List.mem_cons_self _ _
      · exact List.mem_cons_of_mem _ (ih h1)

theorem rstripChars_head? {p : Char → Bool} :
    ∀ {l : List Char}, rstripChars p l ≠ [] →
      (rstripChars p l).head? = l.head? := by
  intro l h
  cases l with
  | nil => rfl
  | cons a as =>
    rw [rstripChars_cons] at h ⊢
    by_cases hc : ((rstripChars p as).isEmpty && p a) = true
    · rw [if_pos hc] at h; exact absurd rfl h
    · rw [if_neg hc]; rfl

theorem rstripChars_getLast? {p : Char → Bool} :
    ∀ {l : List Char} {c : Char},
      (rstripChars p l).getLast? = some c → p c = false := by
  intro l
  induction l with
  | nil => intro c h; simp [rstripChars] at h
  | cons a as ih =>
    intro c h
    rw [rstripChars_cons] at h
    by_cases hc : ((rstripChars p as).isEmpty && p a) = true
    · rw [if_pos hc] at h; simp at h
    · rw [if_neg hc] at h
      cases hr : rstripChars p as with
      | nil =>
        rw [hr] at h hc
        simp only [List.getLast?_singleton, Option.some.injEq] at h
        subst h
        simp only [List.isEmpty_nil, Bool.true_and] at hc
        exact Bool.eq_false_iff.mpr hc
      | cons x xs =>
        rw [hr] at h
        rw [List.getLast?_cons_cons] at h
        rw [← hr] at h
        exact ih h

theorem rstripChars_id {p : Char → Bool} :
    ∀ {l : List Char}, (∀ c, l.getLast? = some c → p c = false) →
      rstripChars p l = l := by
  intro l
  induction l with
  | nil => intro _; rfl
  | cons a as ih =>
    intro h
    cases as with
    | nil =>
      have ha := h a rfl
      rw [rstripChars_cons]
      simp [rstripChars, ha]
    | cons b bs =>
      have htail : rstripChars p (b :: bs) = b :: bs := by
        refine ih ?_
        intro c hc
        exact h c (by rw [List.getLast?_cons_cons]; exact hc)
      rw [rstripChars_cons, htail]
      simp

theorem rstripChars_noDouble {p : Char → Bool} :
    ∀ {l : List Char}, noDoubleUnd l = true →
      noDoubleUnd (rstripChars p l) = true := by
  intro l
  induction l with
  | nil => intro _; rfl
  | cons a as ih =>
    intro h
    rw [rstripChars_cons]
    by_cases hc : ((rstripChars p as).isEmpty && p a) = true
    · rw [if_pos hc]; rfl
    · rw [if_neg hc]
      refine noDoubleUnd_cons (ih (noDoubleUnd_tail h)) ?_
      intro c hcc
      have hne : rstripChars p as ≠ [] := by
        intro hnil; rw [hnil] at hcc; simp at hcc
      rw [rstripChars_head? hne] at hcc
      cases as with
      | nil => simp at hcc
      | cons b bs =>
        simp only [List.head?_cons, Option.some.injEq] at hcc
        subst hcc
        exact noDoubleUnd_pair h

theorem dropWhile_head? {p : Char → Bool} :
    ∀ {l : List Char} {c : Char},
      (l.dropWhile p).head? = some c → p c = false := by
  intro l
  induction l with
  | nil => intro c h; simp at h
  | cons a as ih =>
    intro c h
    rw [List.dropWhile_cons] at h
    split at h
    · exact ih h
    · next hp =>
      simp only [List.head?_cons, Option.some.injEq] at h
      subst h
      simpa using hp

theorem dropWhile_id_of_head {p : Char → Bool} :
    ∀ {l : List Char}, (∀ c, l.head? = some c → p c = false) →
      l.dropWhile p = l := by
  intro l h
  cases l with
  | nil => rfl
  | cons a as =>
    have := h a rfl
    rw [List.dropWhile_cons]
    simp [this]

theorem dropWhile_noDouble {p : Char → Bool} :
    ∀ {l : List Char}, noDoubleUnd l = true →
      noDoubleUnd (l.dropWhile p) = true := by
  intro l
  induction l with
  | nil => intro _; rfl
  | cons a as ih =>
    intro h
    rw [List.dropWhile_cons]
    split
    · exact ih (noDoubleUnd_tail h)
    · exact h

theorem stripEnds_mem {p : Char → Bool} {l : List Char} {c : Char}
    (h : c ∈ stripEnds p l) : c ∈ l :=
  (List.dropWhile_sublist _).subset (rstripChars_mem h)

theorem stripEnds_head? {p : Char → Bool} {l : List Char} {c : Char}
    (h : (stripEnds p l).head? = some c) : p c = false := by
  have hne : stripEnds p l ≠ [] := by
    intro hnil; rw [hnil] at h; simp at h
  unfold stripEnds at h hne
  rw [rstripChars_head? hne] at h
  exact dropWhile_head? h

theorem stripEnds_getLast? {p : Char → Bool} {l : List Char} {c : Char}
    (h : (stripEnds p l).getLast? = some c) : p c = false :=
  rstripChars_getLast? h

theorem stripEnds_noDouble {p : Char → Bool} {l : List Char}
    (h : noDoubleUnd l = true) : noDoubleUnd (stripEnds p l) = true :=
  rstripChars_noDouble (dropWhile_noDouble h)

theorem stripEnds_id {p : Char → Bool} {l : List Char}
    (h1 : ∀ c, l.head? = some c → p c = false)
    (h2 : ∀ c, l.getLast? = some c → p c = false) :
    stripEnds p l = l := by
  unfold stripEnds
  rw [dropWhile_id_of_head h1]
  exact rstripChars_id h2

/-- Unfolding of the pipeline stages. -/
theorem sanitizePipeline_eq (l : List Char) :
    sanitizePipeline l =
      stripEnds stripChar (collapseRuns hyphChar '-' (collapseRuns undChar '_'
        ((collapseRuns sepChar '_' (posixName l)).filter keepChar))) := rfl

theorem goodChar_allowed {c : Char} (h : goodChar c = true) :
    allowedChar c = true := by
  simp only [goodChar, keepChar, wordChar, Bool.and_eq_true, Bool.or_eq_true,
    decide_eq_true_eq] at h
  rcases h.1 with (((h1 | h1) | h1) | h1) | h1 <;> simp [allowedChar, h1]

/-- Every output of the sanitizer pipeline is in normal form. -/
theorem sanitizePipeline_norm (l : List Char) : normTok (sanitizePipeline l) := by
  rw [sanitizePipeline_eq]
  have h1 : ∀ c ∈ collapseRuns sepChar '_' (posixName l), sepChar c = false := by
    intro c hc
    rcases collapseRunsAux_mem hc with h | h
    · subst h; decide
    · exact h.2
  have h2 : ∀ c ∈ (collapseRuns sepChar '_' (posixName l)).filter keepChar,
      goodChar c = true := by
    intro c hc
    have hk := List.of_mem_filter hc
    have hs := h1 c (List.mem_of_mem_filter hc)
    simp [goodChar, hk, hs]
  have h3 : ∀ c ∈ collapseRuns undChar '_'
      ((collapseRuns sepChar '_' (posixName l)).filter keepChar),
      goodChar c = true := by
    intro c hc
    rcases collapseRunsAux_mem hc with h | h
    · subst h; decide
    · exact h2 c h.1
  have h3nd : noDoubleUnd (collapseRuns undChar '_'
      ((collapseRuns sepChar '_' (posixName l)).filter keepChar)) = true :=
    collapseUnd_noDouble false _
  have h4 : collapseRuns hyphChar '-' (collapseRuns undChar '_'
      ((collapseRuns sepChar '_' (posixName l)).filter keepChar)) =
      collapseRuns undChar '_'
        ((collapseRuns sepChar '_' (posixName l)).filter keepChar) := by
    refine collapseRunsAux_id ?_
    intro c hc
    cases hh : hyphChar c with
    | false => rfl
    | true =>
      have : c = '-' := of_decide_eq_true hh
      subst this
      have := h3 _ hc
      simp [goodChar, keepChar, sepChar] at this
  rw [h4]
  refine ⟨?_, stripEnds_noDouble h3nd, ?_, ?_⟩
  · intro c hc
    exact h3 c (stripEnds_mem hc)
  · intro c hc
    exact stripEnds_head? hc
  · intro c hc
    exact stripEnds_getLast? hc

theorem splitSlash_no_slash :
    ∀ {l : List Char}, (∀ c ∈ l, c ≠ '/') → splitSlash l = [l] := by
  intro l
  induction l with
  | nil => intro _; rfl
  | cons a as ih =>
    intro h
    have ha : a ≠ '/' := h a (List.mem_cons_self _ _)
    have htl := ih fun c hc => h c (List.mem_cons_of_mem _ hc)
    simp [splitSlash, ha, htl]

/-- A normal-form token is a fixed point of the pipeline. -/
theorem sanitizePipeline_fixed {r : List Char} (hn : normTok r) (hne : r ≠ []) :
    sanitizePipeline r = r := by
  obtain ⟨hgood, hnd, hhead, hlast⟩ := hn
  have hsep : ∀ c ∈ r, sepChar c = false := by
    intro c hc
    have := hgood c hc
    simp only [goodChar, Bool.and_eq_true, Bool.not_eq_true'] at this
    exact this.2
  have hslash : ∀ c ∈ r, c ≠ '/' := by
    intro c hc h
    subst h
    have := hsep _ hc
    simp [sepChar] at this
  have hname : posixName r = r := by
    unfold posixName
    rw [splitSlash_no_slash hslash]
    have hne' : r.isEmpty = false := by
      cases r with
      | nil => exact absurd rfl hne
      | cons _ _ => rfl
    have hdot : (r != ['.']) = true := by
      refine bne_iff_ne.mpr ?_
      intro h
      have : r.head? = some '.' := by rw [h]; rfl
      have := hhead _ this
      simp [stripChar] at this
    simp [hne', hdot]
  have e1 : collapseRuns sepChar '_' r = r := collapseRunsAux_id hsep
  have e2 : r.filter keepChar = r := by
    refine List.filter_eq_self.mpr ?_
    intro c hc
    have := hgood c hc
    simp only [goodChar, Bool.and_eq_true] at this
    exact this.1
  have e3 : collapseRuns undChar '_' r = r := collapseUnd_id hnd
  have e4 : collapseRuns hyphChar '-' r = r := by
    refine collapseRunsAux_id ?_
    intro c hc
    cases hh : hyphChar c with
    | false => rfl
    | true =>
      have : c = '-' := of_decide_eq_true hh
      subst this
      have := hgood _ hc
      simp [goodChar, keepChar, sepChar] at this
  rw [sanitizePipeline_eq, hname, e1, e2, e3, e4]
  exact stripEnds_id hhead hlast

/-! ### Evaluation lemmas for `sanitize_filename` -/

theorem sanitize_filename_default {s d : String}
    (hp : sanitizePipeline s.data = []) : sanitize_filename s d = d := by
  by_cases hs : s = ""
  · unfold sanitize_filename
    rw [if_pos hs]
  · unfold sanitize_filename
    rw [if_neg hs]
    show (if (sanitizePipeline s.data).isEmpty = true then d
      else (⟨sanitizePipeline s.data⟩ : String)) = d
    rw [hp]
    rfl

theorem sanitize_filename_eval {s d : String} (hs : s ≠ "")
    (hp : sanitizePipeline s.data ≠ []) :
    sanitize_filename s d = ⟨sanitizePipeline s.data⟩ := by
  unfold sanitize_filename
  rw [if_neg hs]
  show (if (sanitizePipeline s.data).isEmpty = true then d
    else (⟨sanitizePipeline s.data⟩ : String)) = _
  have hie : (sanitizePipeline s.data).isEmpty = false := by
    cases hh : sanitizePipeline s.data with
    | nil => exact absurd hh hp
    | cons _ _ => rfl
  rw [hie]
  rfl

/-- A string whose character list is a nonempty pipeline fixed point is left
unchanged by `sanitize_filename`. -/
theorem sanitize_filename_of_fixed {t d : String} (ht : t ≠ "")
    (hfix : sanitizePipeline t.data = t.data) :
    sanitize_filename t d = t := by
  obtain ⟨l⟩ := t
  have hfix' : sanitizePipeline l = l := hfix
  have hl : l ≠ [] := by
    intro h
    exact ht (by rw [h])
  have hp : sanitizePipeline (String.mk l).data ≠ [] := by
    show sanitizePipeline l ≠ []
    rw [hfix']
    exact hl
  rw [sanitize_filename_eval ht hp]
  show (⟨sanitizePipeline l⟩ : String) = _
  rw [hfix']

theorem isSafeToken_all {t : String} (h : isSafeToken t = true) :
    ∀ c ∈ t.data, allowedChar c = true := by
  simp only [isSafeToken, Bool.and_eq_true, List.all_eq_true] at h
  exact h.2

/-! ## Claim C4 and C10 theorems -/

/-- C4 counterexample: the claim quantifies over every fallback, but with
fallback `"/"` (sanitization of `"."` leaves nothing, so the fallback is
returned verbatim) the result contains a path separator, contradicting the
claimed "contains no path separators ... only letters, digits, `.`, `_`,
`-`" guarantee. -/
theorem sanitize_filename_claim_counterexample :
    sanitize_filename "." "/" = "/" ∧ '/' ∈ (sanitize_filename "." "/").data := by
  decide

/-- C4 (amended): `sanitize_filename` always terminates and, for every
fallback that is itself a safe token (non-empty, not `..`, made only of
letters, digits, `.`, `_`, `-` — e.g. the default `"downloaded_file"`),
returns a safe token free of path separators and traversal components; the
fallback is returned exactly when sanitization leaves nothing, and in
particular `sanitize_filename "" d = d`. -/
theorem sanitize_filename_total_safe (s d : String)
    (hd : isSafeToken d = true) :
    isSafeToken (sanitize_filename s d) = true ∧
    '/' ∉ (sanitize_filename s d).data ∧
    '\\' ∉ (sanitize_filename s d).data ∧
    (sanitizePipeline s.data = [] → sanitize_filename s d = d) ∧
    sanitize_filename "" d = d := by
  have hmain : isSafeToken (sanitize_filename s d) = true := by
    by_cases hp : sanitizePipeline s.data = []
    · rw [sanitize_filename_default hp]; exact hd
    · by_cases hs : s = ""
      · exfalso
        apply hp
        rw [hs]
        rfl
      · rw [sanitize_filename_eval hs hp]
        obtain ⟨hgood, _, hhead, _⟩ := sanitizePipeline_norm s.data
        simp only [isSafeToken, Bool.and_eq_true]
        refine ⟨⟨?_, ?_⟩, ?_⟩
        · show (!(sanitizePipeline s.data).isEmpty) = true
          cases hh : sanitizePipeline s.data with
          | nil => exact absurd hh hp
          | cons _ _ => rfl
        · refine bne_iff_ne.mpr ?_
          intro he
          have hdata : sanitizePipeline s.data = ['.', '.'] :=
            congrArg String.data he
          have hh : (sanitizePipeline s.data).head? = some '.' := by
            rw [hdata]; rfl
          have := hhead _ hh
          simp [stripChar] at this
        · refine List.all_eq_true.mpr ?_
          intro c hc
          exact goodChar_allowed (hgood c hc)
  refine ⟨hmain, ?_, ?_, fun hp => sanitize_filename_default hp, ?_⟩
  · intro hmem
    exact absurd (isSafeToken_all hmain _ hmem) (by decide)
  · intro hmem
    exact absurd (isSafeToken_all hmain _ hmem) (by decide)
  · exact sanitize_filename_default rfl

/-- Witness for C4 at a concrete traversal input and the default fallback. -/
theorem sanitize_filename_total_safe_witness :
    isSafeToken "downloaded_file" = true ∧
    (isSafeToken (sanitize_filename "../../etc/passwd" "downloaded_file") = true ∧
     '/' ∉ (sanitize_filename "../../etc/passwd" "downloaded_file").data ∧
     '\\' ∉ (sanitize_filename "../../etc/passwd" "downloaded_file").data ∧
     (sanitizePipeline ("../../etc/passwd" : String).data = [] →
       sanitize_filename "../../etc/passwd" "downloaded_file" = "downloaded_file") ∧
     sanitize_filename "" "downloaded_file" = "downloaded_file") :=
  ⟨by decide, sanitize_filename_total_safe "../../etc/passwd" "downloaded_file"
    (by decide)⟩

/-- C10: `sanitize_filename` is idempotent — for every string `s` and every
fallback `d` that is itself a fixed point of sanitization (such as the
default `"downloaded_file"`), re-sanitizing an already-sanitized name
returns it unchanged, so path segments built from sanitized names are
stable. -/
theorem sanitize_filename_idempotent (s d : String)
    (hd : sanitize_filename d d = d) :
    sanitize_filename (sanitize_filename s d) d = sanitize_filename s d := by
  by_cases hp : sanitizePipeline s.data = []
  · rw [sanitize_filename_default hp]
    exact hd
  · by_cases hs : s = ""
    · exfalso
      apply hp
      rw [hs]
      rfl
    · rw [sanitize_filename_eval hs hp]
      refine sanitize_filename_of_fixed ?_ ?_
      · intro h0
        exact hp (congrArg String.data h0)
      · show sanitizePipeline (sanitizePipeline s.data) = sanitizePipeline s.data
        exact sanitizePipeline_fixed (sanitizePipeline_norm s.data) hp

/-! ### SHA-256 digest shape lemmas -/

theorem list_length_eight {α : Type} {l : List α} (hh : l.length = 8) :
    ∃ a b c d e f g h8, l = [a, b, c, d, e, f, g, h8] := by
  rcases l with _ | ⟨a, l⟩; · simp at hh
  rcases l with _ | ⟨b, l⟩; · simp at hh
  rcases l with _ | ⟨c, l⟩; · simp at hh
  rcases l with _ | ⟨d, l⟩; · simp at hh
  rcases l with _ | ⟨e, l⟩; · simp at hh
  rcases l with _ | ⟨f, l⟩; · simp at hh
  rcases l with _ | ⟨g, l⟩; · simp at hh
  rcases l with _ | ⟨h8, l⟩; · simp at hh
  rcases l with _ | ⟨x, l⟩
  · exact ⟨a, b, c, d, e, f, g, h8, rfl⟩
  · simp at hh

theorem sha256Compress_length :
    ∀ (ws ks h : List Nat), h.length = 8 →
      (sha256Compress h ws ks).length = 8 := by
  intro ws
  induction ws with
  | nil =>
    intro ks h hh
    cases ks <;> simpa [sha256Compress] using hh
  | cons wi ws ih =>
    intro ks h hh
    cases ks with
    | nil => simpa [sha256Compress] using hh
    | cons ki ks =>
      obtain ⟨a, b, c, d, e, f, g, h8, rfl⟩ := list_length_eight hh
      simp only [sha256Compress]
      exact ih ks _ rfl

theorem sha256Block_length {h : List Nat} (hh : h.length = 8)
    (b : List Nat) : (sha256Block h b).length = 8 := by
  unfold sha256Block
  rw [List.length_zipWith, sha256Compress_length _ _ _ hh, hh]
  simp

theorem foldl_sha256Block_length :
    ∀ (bs : List (List Nat)) (h : List Nat), h.length = 8 →
      (bs.foldl sha256Block h).length = 8 := by
  intro bs
  induction bs with
  | nil => intro h hh; exact hh
  | cons b bs ih =>
    intro h hh
    exact ih _ (sha256Block_length hh b)

theorem sha256Words_length (msg : List Nat) : (sha256Words msg).length = 8 :=
  foldl_sha256Block_length _ _ rfl

theorem foldr_hex_length :
    ∀ (ws : List Nat) (acc : List Char),
      (ws.foldr (fun wd acc => word32ToHex wd ++ acc) acc).length =
        8 * ws.length + acc.length := by
  intro ws
  induction ws with
  | nil => intro acc; simp
  | cons w ws ih =>
    intro acc
    simp only [List.foldr_cons, List.length_append, ih, List.length_cons]
    show (word32ToHex w).length + _ = _
    simp only [word32ToHex, List.length_cons, List.length_nil]
    ring

/-- The hex digest always has 64 characters. -/
theorem generate_sha256_hash_length (msg : List Nat) :
    (generate_sha256_hash_from_bytes msg).data.length = 64 := by
  show ((sha256Words msg).foldr (fun wd acc => word32ToHex wd ++ acc)
    []).length = 64
  rw [foldr_hex_length, sha256Words_length]
  simp

theorem generate_sha256_hash_ne_empty (msg : List Nat) :
    generate_sha256_hash_from_bytes msg ≠ "" := by
  intro h
  have h2 : (generate_sha256_hash_from_bytes msg).data.length =
      ("" : String).data.length := by rw [h]
  rw [generate_sha256_hash_length] at h2
  simp at h2

/-- Witness for C10 at a concrete input with the default fallback. -/
theorem sanitize_filename_idempotent_witness :
    sanitize_filename "downloaded_file" "downloaded_file" = "downloaded_file" ∧
    sanitize_filename (sanitize_filename "a b- c.txt" "downloaded_file")
        "downloaded_file" =
      sanitize_filename "a b- c.txt" "downloaded_file" :=
  ⟨by decide, sanitize_filename_idempotent "a b- c.txt" "downloaded_file"
    (by decide)⟩

/-! ### Lexicographic order facts -/

theorem lexLe_total : ∀ (a b : List Char), lexLe a b = true ∨ lexLe b a = true := by
  intro a
  induction a with
  | nil => intro b; left; rfl
  | cons x xs ih =>
    intro b
    cases b with
    | nil => right; rfl
    | cons y ys =>
      simp only [lexLe]
      rcases Nat.lt_trichotomy x.toNat y.toNat with h | h | h
      · left; simp [h]
      · have hxy : ¬ x.toNat < y.toNat := by omega
        have hyx : ¬ y.toNat < x.toNat := by omega
        rcases ih ys with h2 | h2
        · left; simp [hxy, hyx, h2]
        · right; simp [hxy, hyx, h2]
      · right; simp [h]

theorem lexLe_trans :
    ∀ {a b c : List Char}, lexLe a b = true → lexLe b c = true →
      lexLe a c = true := by
  intro a
  induction a with
  | nil => intro b c _ _; rfl
  | cons x xs ih =>
    intro b c hab hbc
    cases b with
    | nil => simp [lexLe] at hab
    | cons y ys =>
      cases c with
      | nil => simp [lexLe] at hbc
      | cons z zs =>
        simp only [lexLe] at hab hbc ⊢
        have hab' : x.toNat < y.toNat ∨
            (x.toNat = y.toNat ∧ lexLe xs ys = true) := by
          by_cases h1 : x.toNat < y.toNat
          · exact Or.inl h1
          · by_cases h2 : y.toNat < x.toNat
            · rw [if_neg h1, if_pos h2] at hab; exact absurd hab (by simp)
            · exact Or.inr ⟨by omega, by rwa [if_neg h1, if_neg h2] at hab⟩
        have hbc' : y.toNat < z.toNat ∨
            (y.toNat = z.toNat ∧ lexLe ys zs = true) := by
          by_cases h1 : y.toNat < z.toNat
          · exact Or.inl h1
          · by_cases h2 : z.toNat < y.toNat
            · rw [if_neg h1, if_pos h2] at hbc; exact absurd hbc (by simp)
            · exact Or.inr ⟨by omega, by rwa [if_neg h1, if_neg h2] at hbc⟩
        rcases hab' with h1 | ⟨h1, h1'⟩ <;> rcases hbc' with h2 | ⟨h2, h2'⟩
        · have : x.toNat < z.toNat := by omega
          simp [this]
        · have : x.toNat < z.toNat := by omega
          simp [this]
        · have : x.toNat < z.toNat := by omega
          simp [this]
        · rw [if_neg (by omega : ¬ x.toNat < z.toNat),
            if_neg (by omega : ¬ z.toNat < x.toNat)]
          exact ih h1' h2'

instance : IsTotal String (fun a b => strLe a b = true) :=
  ⟨fun a b => lexLe_total a.data b.data⟩

instance : IsTrans String (fun a b => strLe a b = true) :=
  ⟨fun _ _ _ => lexLe_trans⟩

/-! ### Characterization of the per-anchor link rule -/

theorem anchorLink_eq_some {join : String → String → String}
    {url a l : String} :
    anchorLink join url a = some l ↔
      pyStrip a ≠ "" ∧ isExcludedHref (pyStrip a) = false ∧
      isHttpScheme (join url (pyStrip a)) = true ∧ join url (pyStrip a) = l := by
  unfold anchorLink
  by_cases h1 : pyStrip a = ""
  · simp [h1]
  · cases h2 : isExcludedHref (pyStrip a) with
    | true => simp [h1, h2]
    | false =>
      cases h3 : isHttpScheme (join url (pyStrip a)) with
      | true => simp [h1, h2, h3, eq_comm]
      | false => simp [h1, h2, h3]

/-! ## Claim C2 theorems -/

/-- C2 counterexample: a canonical declaration that resolves to a URL with
scheme `mailto` leaves both the canonical URL and its hash `None`; the claim
demands the original URL (and its hash) instead. -/
theorem canonical_claim_counterexample :
    (core_parse_links_and_canonical_from_html urljoinModel
      (some { canonicalHref := some "mailto:x@y.com", anchorHrefs := [] })
      "https://a.test/p").canonical_url = none ∧
    (core_parse_links_and_canonical_from_html urljoinModel
      (some { canonicalHref := some "mailto:x@y.com", anchorHrefs := [] })
      "https://a.test/p").canonical_url_hash_sha256 = none := by
  constructor <;> decide

/-- C2 (amended): canonical-URL resolution of
`core_parse_links_and_canonical_from_html` — when the canonical declaration
is absent (or its href attribute is empty, which the code treats as absent),
the original URL is accepted as canonical; when it is present and resolves
to an http/https URL, that resolved URL is accepted; when it is present but
resolves to a non-http/https URL, the canonical URL and its hash are left
null (no fallback).  In every case the hash field is the SHA-256 hex digest
of the accepted canonical URL (null when none is accepted). -/
theorem canonical_resolution (join : String → String → String)
    (doc : HtmlDoc) (url : String) :
    ((doc.canonicalHref = none ∨ doc.canonicalHref = some "") →
      (core_parse_links_and_canonical_from_html join (some doc) url).canonical_url
        = some url) ∧
    (∀ h0, doc.canonicalHref = some h0 → h0 ≠ "" →
      isHttpScheme (join url (pyStrip h0)) = true →
      (core_parse_links_and_canonical_from_html join (some doc) url).canonical_url
        = some (join url (pyStrip h0))) ∧
    (∀ h0, doc.canonicalHref = some h0 → h0 ≠ "" →
      isHttpScheme (join url (pyStrip h0)) = false →
      (core_parse_links_and_canonical_from_html join (some doc) url).canonical_url
        = none) ∧
    ((core_parse_links_and_canonical_from_html join (some doc) url).canonical_url_hash_sha256
      = ((core_parse_links_and_canonical_from_html join (some doc) url).canonical_url).map
          generate_sha256_hash_from_string) := by
  refine ⟨?_, ?_, ?_, ?_⟩
  · rintro (h | h) <;>
      simp [core_parse_links_and_canonical_from_html, h]
  · intro h0 hh hne hhttp
    simp [core_parse_links_and_canonical_from_html, hh, hne, hhttp]
  · intro h0 hh hne hhttp
    simp [core_parse_links_and_canonical_from_html, hh, hne, hhttp]
  · cases hc : doc.canonicalHref with
    | none => simp [core_parse_links_and_canonical_from_html, hc]
    | some h0 =>
      by_cases hne : h0 = ""
      · simp [core_parse_links_and_canonical_from_html, hc, hne]
      · cases hhttp : isHttpScheme (join url (pyStrip h0)) <;>
          simp [core_parse_links_and_canonical_from_html, hc, hne, hhttp]

/-- Witness for C2 at a concrete document with a valid relative canonical
declaration. -/
theorem canonical_resolution_witness :
    (core_parse_links_and_canonical_from_html urljoinModel
      (some { canonicalHref := some "/c", anchorHrefs := [] })
      "https://a.test/p").canonical_url = some "https://a.test/c" := by
  have h := (canonical_resolution urljoinModel
    { canonicalHref := some "/c", anchorHrefs := [] } "https://a.test/p").2.1
    "/c" rfl (by decide) (by decide)
  rw [h]
  decide

/-! ## Claim C6 theorems -/

/-- C6 counterexample: an anchor whose href is the empty string is not in
the claim's exclusion list (fragment-only, `mailto:`, `javascript:`), and
the empty reference resolves to the base URL itself, so by the claim the
extracted links must be exactly the base URL; the code additionally drops
empty targets and returns no links. -/
theorem extracted_links_claim_counterexample :
    (core_parse_links_and_canonical_from_html urljoinModel
      (some { canonicalHref := none, anchorHrefs := [""] })
      "https://a.test/p").extracted_links = [] ∧
    specExtractedLinks urljoinModel
      { canonicalHref := none, anchorHrefs := [""] }
      "https://a.test/p" = ["https://a.test/p"] := by
  constructor <;> decide

/-- C6 (amended): the extracted-links sequence contains exactly the anchor
targets that are non-empty after stripping, not fragment-only/`mailto:`/
`javascript:`, resolved against the original URL, and of scheme http/https;
it is duplicate-free and sorted in code-point lexicographic order; and on
the claim's example document with base `https://a.test/p` it is exactly
`["https://a.test/b"]`. -/
theorem extracted_links_characterization (join : String → String → String)
    (doc : HtmlDoc) (url : String) :
    List.Sorted (fun a b => strLe a b = true)
      (core_parse_links_and_canonical_from_html join (some doc) url).extracted_links ∧
    (core_parse_links_and_canonical_from_html join (some doc) url).extracted_links.Nodup ∧
    (∀ l, l ∈ (core_parse_links_and_canonical_from_html join (some doc) url).extracted_links ↔
      ∃ a ∈ doc.anchorHrefs, pyStrip a ≠ "" ∧
        isExcludedHref (pyStrip a) = false ∧
        isHttpScheme (join url (pyStrip a)) = true ∧
        join url (pyStrip a) = l) ∧
    (core_parse_links_and_canonical_from_html urljoinModel
      (some ⟨none, ["#top", "mailto:x@y.com", "/b", "javascript:void(0)"]⟩)
      "https://a.test/p").extracted_links = ["https://a.test/b"] := by
  refine ⟨?_, ?_, ?_, by decide⟩
  · exact List.sorted_insertionSort _ _
  · exact ((List.perm_insertionSort _ _).nodup_iff).mpr (List.nodup_dedup _)
  · intro l
    show l ∈ List.insertionSort _
      (doc.anchorHrefs.filterMap (anchorLink join url)).dedup ↔ _
    rw [List.mem_insertionSort, List.mem_dedup, List.mem_filterMap]
    constructor
    · rintro ⟨a, ha, hfa⟩
      obtain ⟨h1, h2, h3, h4⟩ := anchorLink_eq_some.mp hfa
      exact ⟨a, ha, h1, h2, h3, h4⟩
    · rintro ⟨a, ha, h1, h2, h3, h4⟩
      exact ⟨a, ha, anchorLink_eq_some.mpr ⟨h1, h2, h3, h4⟩⟩

/-! ## Claim C8 theorems -/

theorem strPairs_map (hs : List (String × String)) :
    strPairs (hs.map (fun p => (p.1, Json.str p.2))) = some hs := by
  induction hs with
  | nil => rfl
  | cons p ps ih => simp [strPairs, ih]

/-- Parsing the encoding of a naive timestamp yields the aware UTC
timestamp with the same wall-clock fields. -/
theorem parse_encode_naive {n : String} (hf : plausibleNaiveIso n = true) :
    parsePyDateTime (encodeDatetime ⟨n, none⟩) = some ⟨n, some 0⟩ := by
  show parsePyDateTime (n ++ "Z") = some ⟨n, some 0⟩
  unfold parsePyDateTime
  have hdata : (n ++ "Z").data = n.data ++ ['Z'] := String.data_append n "Z"
  rw [hdata, List.getLast?_concat, if_pos rfl, List.dropLast_concat]
  rw [if_pos hf]

/-- C8 counterexample: `DemoFileManifestEntry` admits timezone-aware
timestamps, and for such an entry the encoder emits
`…+00:00Z` (isoformat already carries the offset, then `"Z"` is appended),
which datetime validation rejects — the serialized manifest does not parse
back at all, contradicting the claim's universal round-trip. -/
theorem manifest_roundtrip_claim_counterexample :
    parseEntry (serializeEntry demoEntryAware) = none := by decide

/-- C8 (amended): for every manifest entry whose download timestamp is
naive (as every entry constructed by the pipeline is — `datetime.utcnow()`
— with a wellformed naive isoformat string), serializing to manifest JSON
and parsing back succeeds and yields an entry with identical field values,
where the parsed timestamp is the aware-UTC reading of the same wall-clock
fields and both timestamps have the same UTC `Z` representation. -/
theorem manifest_roundtrip (e : DemoFileManifestEntry)
    (hnaive : e.download_timestamp_utc.offset = none)
    (hform : plausibleNaiveIso e.download_timestamp_utc.naive = true) :
    parseEntry (serializeEntry e) =
      some { e with download_timestamp_utc :=
        ⟨e.download_timestamp_utc.naive, some 0⟩ } ∧
    toZRepr (⟨e.download_timestamp_utc.naive, some 0⟩ : PyDateTime) =
      toZRepr e.download_timestamp_utc := by
  obtain ⟨dsn, ofn, su, spu, lt, ch, ha, wsp, st, ts, fsb, ct, hh, msv⟩ := e
  obtain ⟨tsn, tso⟩ := ts
  have hnaive' : tso = none := hnaive
  subst hnaive'
  have hform' : plausibleNaiveIso tsn = true := hform
  constructor
  · rcases spu with _ | spu <;> rcases lt with _ | lt <;>
      rcases fsb with _ | fsb <;> rcases ct with _ | ct <;>
      rcases hh with _ | hh <;>
      simp [parseEntry, serializeEntry, jsonField, List.find?, asStr,
        asOptStr, asOptInt, asHeaders, strPairs_map,
        parse_encode_naive hform', optStr, optInt, headersJson]
  · rfl

/-- Witness for C8 at a concrete naive-timestamp entry. -/
theorem manifest_roundtrip_witness :
    plausibleNaiveIso demoEntryNaive.download_timestamp_utc.naive = true ∧
    (parseEntry (serializeEntry demoEntryNaive) = some demoEntryAware ∧
     toZRepr (⟨demoEntryNaive.download_timestamp_utc.naive, some 0⟩ :
       PyDateTime) = toZRepr demoEntryNaive.download_timestamp_utc) :=
  ⟨by decide, manifest_roundtrip demoEntryNaive rfl (by decide)⟩

/-! ## Claim C3 theorem -/

/-- C3: `core_fetch_json_from_api` returns the parsed body on 2xx and
`None` on HTTP-status and network errors, but on a JSON-decode error it
does NOT return `None`: because `api_handlers.py` never imports `json`,
evaluating the `except json.JSONDecodeError` clause raises `NameError`,
which escapes to the caller instead of being swallowed. -/
theorem fetch_json_decode_error_raises :
    core_fetch_json_from_api ApiOutcome.okNotJson =
      PyOutcome.raised "NameError: name \x27json\x27 is not defined" ∧
    core_fetch_json_from_api ApiOutcome.httpStatusError =
      PyOutcome.ret none ∧
    core_fetch_json_from_api ApiOutcome.requestError = PyOutcome.ret none ∧
    (∀ v, core_fetch_json_from_api (ApiOutcome.okJson v) =
      PyOutcome.ret (some v)) :=
  ⟨rfl, rfl, rfl, fun _ => rfl⟩

/-! ## Claim C9 theorems -/

theorem lookupKey_dictSet_self :
    ∀ (d : List (String × PyVal)) (k : String) (v : PyVal),
      lookupKey (dictSet d k v) k = some v := by
  intro d k v
  induction d with
  | nil => simp [dictSet, lookupKey]
  | cons p ps ih =>
    by_cases h : p.1 = k
    · simp [dictSet, h, lookupKey]
    · simp only [dictSet, if_neg h]
      show lookupKey (p :: dictSet ps k v) k = some v
      simp only [lookupKey, List.find?]
      rw [show (decide (p.1 = k)) = false by simp [h]]
      exact ih

theorem lookupKey_dictSet_other
    {d : List (String × PyVal)} {k k' : String} {v : PyVal} (h : k' ≠ k) :
    lookupKey (dictSet d k v) k' = lookupKey d k' := by
  induction d with
  | nil =>
    have h1 : (decide (k = k')) = false := by simp [Ne.symm h]
    simp [dictSet, lookupKey, List.find?, h1]
  | cons p ps ih =>
    by_cases hp : p.1 = k
    · have h1 : (decide (k = k')) = false := by simp [Ne.symm h]
      have h2 : (decide (p.1 = k')) = false := by rw [hp]; simp [Ne.symm h]
      simp [dictSet, if_pos hp, lookupKey, List.find?, h1, h2]
    · by_cases hpk : p.1 = k'
      · have h2 : (decide (p.1 = k')) = true := by simp [hpk]
        simp only [dictSet, if_neg hp, lookupKey, List.find?, h2]
      · have h2 : (decide (p.1 = k')) = false := by simp [hpk]
        simp only [dictSet, if_neg hp, lookupKey, List.find?, h2]
        exact ih

theorem dictSet_length_le :
    ∀ (d : List (String × PyVal)) (k : String) (v : PyVal),
      (dictSet d k v).length ≤ d.length + 1 := by
  intro d k v
  induction d with
  | nil => simp [dictSet]
  | cons p ps ih =>
    by_cases h : p.1 = k
    · simp [dictSet, h]
    · simp only [dictSet, if_neg h, List.length_cons]
      omega

/-- C9 counterexample: the empty dict is a legitimate parsed JSON response,
and on it `core_parse_api_response_for_demo` returns `None` rather than the
record with a diagnostic message and snippet the claim promises. -/
theorem parse_api_response_claim_counterexample :
    core_parse_api_response_for_demo [] "fact" = none := rfl

/-- C9 (amended): for every NON-EMPTY dict response and every primary key,
the parser returns a record: when the primary key is present (and is not
itself one of the companion field names, which may overwrite it), the
record maps it to its original value, plus the applicable companion
fields — the response\x27s `length` value under `length` when the response
has one, else (when the response has an `activity` key) its `type` and
`participants` values under `activity_type` and `participants` (`None`
when missing); `data_retrieved = True` is always present (unless the
primary key shadows it); when the primary key is absent, the record
carries a diagnostic message and a snippet of at most the first three
key/value pairs; the record never has more than four entries.  For the
empty dict (or a `None`/non-dict argument) the function returns `None`. -/
theorem parse_api_response_record (response : List (String × PyVal))
    (pk : String) (hne : response.isEmpty = false) :
    ∃ r, core_parse_api_response_for_demo response pk = some r ∧
      ((pk ≠ "length" ∧ pk ≠ "activity_type" ∧ pk ≠ "participants") →
        ∀ v, lookupKey response pk = some v → lookupKey r pk = some v) ∧
      (pk ≠ "data_retrieved" →
        lookupKey r "data_retrieved" = some (PyVal.bool true)) ∧
      ((lookupKey response pk).isSome = true →
        ∀ len, lookupKey response "length" = some len →
          lookupKey r "length" = some len) ∧
      ((lookupKey response pk).isSome = true →
        lookupKey response "length" = none →
        (lookupKey response "activity").isSome = true →
          lookupKey r "activity_type" =
            some ((lookupKey response "type").getD PyVal.pynone) ∧
          lookupKey r "participants" =
            some ((lookupKey response "participants").getD PyVal.pynone)) ∧
      (lookupKey response pk = none →
        lookupKey r "response_snippet" =
          some (PyVal.dict (response.take 3)) ∧
        lookupKey r "message" = some (PyVal.str ("Primary key \x27" ++ pk ++
          "\x27 not found in response.")) ∧
        (response.take 3).length ≤ 3) ∧
      r.length ≤ 4 := by
  unfold core_parse_api_response_for_demo
  rw [hne]
  simp only [Bool.false_eq_true, if_false]
  cases hpk : lookupKey response pk with
  | some v =>
    cases hlen : lookupKey response "length" with
    | some len =>
      refine ⟨_, rfl, ?_, ?_, ?_, ?_, ?_, ?_⟩
      · rintro ⟨hL, _, _⟩ v' hv'
        injection hv' with hv'
        subst hv'
        rw [lookupKey_dictSet_other hL, lookupKey_dictSet_self]
      · intro hdr
        rw [lookupKey_dictSet_other (by decide),
          lookupKey_dictSet_other (Ne.symm hdr), lookupKey_dictSet_self]
      · intro _ len' hlen'
        injection hlen' with hlen'
        subst hlen'
        exact lookupKey_dictSet_self _ _ _
      · intro _ hnone
        exact Option.noConfusion hnone
      · intro hnone
        exact Option.noConfusion hnone
      · calc (dictSet (dictSet (dictSet [] "data_retrieved" (PyVal.bool true))
            pk v) "length" len).length
            ≤ (dictSet (dictSet [] "data_retrieved" (PyVal.bool true))
              pk v).length + 1 := dictSet_length_le _ _ _
          _ ≤ ((dictSet [] "data_retrieved" (PyVal.bool true)).length + 1) + 1 := by
              have := dictSet_length_le
                (dictSet [] "data_retrieved" (PyVal.bool true)) pk v
              omega
          _ ≤ 4 := by simp [dictSet]
    | none =>
      cases hact : lookupKey response "activity" with
      | some av =>
        refine ⟨_, rfl, ?_, ?_, ?_, ?_, ?_, ?_⟩
        · rintro ⟨_, hA, hP⟩ v' hv'
          injection hv' with hv'
          subst hv'
          rw [lookupKey_dictSet_other hP, lookupKey_dictSet_other hA,
            lookupKey_dictSet_self]
        · intro hdr
          rw [lookupKey_dictSet_other (by decide),
            lookupKey_dictSet_other (by decide),
            lookupKey_dictSet_other (Ne.symm hdr), lookupKey_dictSet_self]
        · intro _ len' hlen'
          exact Option.noConfusion hlen'
        · intro _ _ _
          refine ⟨?_, lookupKey_dictSet_self _ _ _⟩
          rw [lookupKey_dictSet_other (by decide), lookupKey_dictSet_self]
        · intro hnone
          exact Option.noConfusion hnone
        · have h1 := dictSet_length_le [] "data_retrieved" (PyVal.bool true)
          have h2 := dictSet_length_le
            (dictSet [] "data_retrieved" (PyVal.bool true)) pk v
          have h3 := dictSet_length_le
            (dictSet (dictSet [] "data_retrieved" (PyVal.bool true)) pk v)
            "activity_type" ((lookupKey response "type").getD PyVal.pynone)
          have h4 := dictSet_length_le
            (dictSet (dictSet (dictSet [] "data_retrieved" (PyVal.bool true))
              pk v) "activity_type"
              ((lookupKey response "type").getD PyVal.pynone))
            "participants"
            ((lookupKey response "participants").getD PyVal.pynone)
          simp only [List.length_nil] at h1
          omega
      | none =>
        refine ⟨_, rfl, ?_, ?_, ?_, ?_, ?_, ?_⟩
        · rintro ⟨_, _, _⟩ v' hv'
          injection hv' with hv'
          subst hv'
          rw [lookupKey_dictSet_self]
        · intro hdr
          rw [lookupKey_dictSet_other (Ne.symm hdr), lookupKey_dictSet_self]
        · intro _ len' hlen'
          exact Option.noConfusion hlen'
        · intro _ _ hsome
          exact Bool.noConfusion hsome
        · intro hnone
          exact Option.noConfusion hnone
        · have h1 := dictSet_length_le [] "data_retrieved" (PyVal.bool true)
          have h2 := dictSet_length_le
            (dictSet [] "data_retrieved" (PyVal.bool true)) pk v
          simp only [List.length_nil] at h1
          omega
  | none =>
    refine ⟨_, rfl, ?_, ?_, ?_, ?_, ?_, ?_⟩
    · rintro _ v' hv'
      exact Option.noConfusion hv'
    · intro hdr
      rw [lookupKey_dictSet_other (by decide),
        lookupKey_dictSet_other (by decide), lookupKey_dictSet_self]
    · intro hsome
      exact Bool.noConfusion hsome
    · intro hsome
      exact Bool.noConfusion hsome
    · intro _
      refine ⟨lookupKey_dictSet_self _ _ _, ?_, ?_⟩
      · rw [lookupKey_dictSet_other (by decide), lookupKey_dictSet_self]
      · have := List.length_take_le 3 response
        omega
    · have h1 := dictSet_length_le [] "data_retrieved" (PyVal.bool true)
      have h2 := dictSet_length_le
        (dictSet [] "data_retrieved" (PyVal.bool true)) "message"
        (PyVal.str ("Primary key \x27" ++ pk ++ "\x27 not found in response."))
      have h3 := dictSet_length_le
        (dictSet (dictSet [] "data_retrieved" (PyVal.bool true)) "message"
          (PyVal.str ("Primary key \x27" ++ pk ++
            "\x27 not found in response.")))
        "response_snippet" (PyVal.dict (response.take 3))
      simp only [List.length_nil] at h1
      omega

/-- Witness for C9 at two concrete responses: one carrying the primary key
and a `length` companion, one lacking the primary key. -/
theorem parse_api_response_record_witness :
    (([("fact", PyVal.str "cats"), ("length", PyVal.int 4)] :
        List (String × PyVal)).isEmpty = false ∧
    (∃ r, core_parse_api_response_for_demo
        [("fact", PyVal.str "cats"), ("length", PyVal.int 4)] "fact" =
        some r ∧
      (("fact" ≠ "length" ∧ "fact" ≠ "activity_type" ∧
          "fact" ≠ "participants") →
        ∀ v, lookupKey [("fact", PyVal.str "cats"), ("length", PyVal.int 4)]
            "fact" = some v → lookupKey r "fact" = some v) ∧
      ("fact" ≠ "data_retrieved" →
        lookupKey r "data_retrieved" = some (PyVal.bool true)) ∧
      ((lookupKey [("fact", PyVal.str "cats"), ("length", PyVal.int 4)]
          "fact").isSome = true →
        ∀ len, lookupKey [("fact", PyVal.str "cats"), ("length", PyVal.int 4)]
            "length" = some len → lookupKey r "length" = some len) ∧
      ((lookupKey [("fact", PyVal.str "cats"), ("length", PyVal.int 4)]
          "fact").isSome = true →
        lookupKey [("fact", PyVal.str "cats"), ("length", PyVal.int 4)]
          "length" = none →
        (lookupKey [("fact", PyVal.str "cats"), ("length", PyVal.int 4)]
          "activity").isSome = true →
          lookupKey r "activity_type" =
            some ((lookupKey [("fact", PyVal.str "cats"),
              ("length", PyVal.int 4)] "type").getD PyVal.pynone) ∧
          lookupKey r "participants" =
            some ((lookupKey [("fact", PyVal.str "cats"),
              ("length", PyVal.int 4)] "participants").getD PyVal.pynone)) ∧
      (lookupKey [("fact", PyVal.str "cats"), ("length", PyVal.int 4)]
          "fact" = none →
        lookupKey r "response_snippet" =
          some (PyVal.dict (([("fact", PyVal.str "cats"),
            ("length", PyVal.int 4)] : List (String × PyVal)).take 3)) ∧
        lookupKey r "message" = some (PyVal.str
          ("Primary key \x27fact\x27 not found in response.")) ∧
        (([("fact", PyVal.str "cats"), ("length", PyVal.int 4)] :
          List (String × PyVal)).take 3).length ≤ 3) ∧
      r.length ≤ 4)) ∧
    (([("x", PyVal.int 1)] : List (String × PyVal)).isEmpty = false ∧
    (∃ r, core_parse_api_response_for_demo [("x", PyVal.int 1)] "fact" =
        some r ∧
      (("fact" ≠ "length" ∧ "fact" ≠ "activity_type" ∧
          "fact" ≠ "participants") →
        ∀ v, lookupKey [("x", PyVal.int 1)] "fact" = some v →
          lookupKey r "fact" = some v) ∧
      ("fact" ≠ "data_retrieved" →
        lookupKey r "data_retrieved" = some (PyVal.bool true)) ∧
      ((lookupKey [("x", PyVal.int 1)] "fact").isSome = true →
        ∀ len, lookupKey [("x", PyVal.int 1)] "length" = some len →
          lookupKey r "length" = some len) ∧
      ((lookupKey [("x", PyVal.int 1)] "fact").isSome = true →
        lookupKey [("x", PyVal.int 1)] "length" = none →
        (lookupKey [("x", PyVal.int 1)] "activity").isSome = true →
          lookupKey r "activity_type" =
            some ((lookupKey [("x", PyVal.int 1)] "type").getD PyVal.pynone) ∧
          lookupKey r "participants" =
            some ((lookupKey [("x", PyVal.int 1)]
              "participants").getD PyVal.pynone)) ∧
      (lookupKey [("x", PyVal.int 1)] "fact" = none →
        lookupKey r "response_snippet" =
          some (PyVal.dict (([("x", PyVal.int 1)] :
            List (String × PyVal)).take 3)) ∧
        lookupKey r "message" = some (PyVal.str
          ("Primary key \x27fact\x27 not found in response.")) ∧
        (([("x", PyVal.int 1)] : List (String × PyVal)).take 3).length ≤ 3) ∧
      r.length ≤ 4)) :=
  ⟨⟨rfl, parse_api_response_record
      [("fact", PyVal.str "cats"), ("length", PyVal.int 4)] "fact" rfl⟩,
   ⟨rfl, parse_api_response_record [("x", PyVal.int 1)] "fact" rfl⟩⟩


theorem find?_filter_ne {p q : Pathv} (h : q ≠ p) :
    ∀ (l : List (Pathv × FileContent)),
      (l.filter (fun r => !(r.1 = p))).find? (fun r => r.1 = q) =
        l.find? (fun r => r.1 = q) := by
  intro l
  induction l with
  | nil => rfl
  | cons a as ih =>
    by_cases ha : a.1 = p
    · have hfp : (!(decide (a.1 = p))) = false := by simp [ha]
      have haq : (decide (a.1 = q)) = false := by simp [ha, Ne.symm h]
      simp only [List.filter_cons, hfp, Bool.false_eq_true, if_false,
        List.find?, haq, ih]
    · have hfp : (!(decide (a.1 = p))) = true := by simp [ha]
      simp only [List.filter_cons, hfp, if_true, List.find?]
      by_cases haq : a.1 = q
      · have hq2 : (decide (a.1 = q)) = true := by simp [haq]
        simp only [hq2]
      · have hq2 : (decide (a.1 = q)) = false := by simp [haq]
        simp only [hq2, ih]

theorem find?_filter_self (p : Pathv) :
    ∀ (l : List (Pathv × FileContent)),
      (l.filter (fun r => !(r.1 = p))).find? (fun r => r.1 = p) = none := by
  intro l
  induction l with
  | nil => rfl
  | cons a as ih =>
    by_cases ha : a.1 = p
    · have hfp : (!(decide (a.1 = p))) = false := by simp [ha]
      simp only [List.filter_cons, hfp, Bool.false_eq_true, if_false, ih]
    · have hfp : (!(decide (a.1 = p))) = true := by simp [ha]
      have ha2 : (decide (a.1 = p)) = false := by simp [ha]
      simp only [List.filter_cons, hfp, if_true, List.find?, ha2, ih]

theorem fileAt_setFile (fs : FS) (p q : Pathv) (c : FileContent) :
    fileAt (setFile fs p c) q = if q = p then some c else fileAt fs q := by
  by_cases h : q = p
  · subst h
    simp [fileAt, setFile, List.find?]
  · have hd : (decide (p = q)) = false := by simp [Ne.symm h]
    simp only [fileAt, setFile, List.find?, hd, if_neg h]
    rw [find?_filter_ne h]

theorem fileAt_removeFile (fs : FS) (p q : Pathv) :
    fileAt (removeFile fs p) q = if q = p then none else fileAt fs q := by
  by_cases h : q = p
  · subst h
    simp [fileAt, removeFile, find?_filter_self]
  · simp only [fileAt, removeFile, if_neg h]
    rw [find?_filter_ne h]

theorem pathPrefixes_length :
    ∀ (p : Pathv) {q : Pathv}, q ∈ pathPrefixes p → q.length ≤ p.length := by
  intro p
  induction p with
  | nil => intro q hq; simp [pathPrefixes] at hq
  | cons s rest ih =>
    intro q hq
    rw [show pathPrefixes (s :: rest) =
      [s] :: (pathPrefixes rest).map (fun q => s :: q) from rfl] at hq
    rcases List.mem_cons.mp hq with h | h
    · subst h; simp
    · obtain ⟨q2, hq2, rfl⟩ := List.mem_map.mp h
      have := ih hq2
      simp only [List.length_cons]
      omega

theorem mem_pathPrefixes_head {q : Pathv} {s : String} {rest : Pathv}
    (h : q ∈ pathPrefixes (s :: rest)) : ∃ t, q = s :: t := by
  rw [show pathPrefixes (s :: rest) =
    [s] :: (pathPrefixes rest).map (fun q => s :: q) from rfl] at h
  rcases List.mem_cons.mp h with h | h
  · exact ⟨[], h⟩
  · obtain ⟨q2, _, rfl⟩ := List.mem_map.mp h
    exact ⟨q2, rfl⟩

theorem store_success (fs : FS) (src base : Pathv) (ds h fname : String)
    (m : DemoFileManifestEntry) (c : FileContent)
    (hds : ds ≠ "") (hh : h ≠ "") (hf : fname ≠ "")
    (hsrc : fileAt fs src = some c)
    (hmk : ∀ q ∈ pathPrefixes (base ++ [sanitize_filename ds, h]),
      isFile fs q = false)
    (hdst : isDir fs ((base ++ [sanitize_filename ds, h]) ++ [fname]) = false) :
    store_file_and_its_manifest_locally fs noFaults src base ds h fname m =
      ((some ((base ++ [sanitize_filename ds, h]) ++ [fname]),
        some ((base ++ [sanitize_filename ds, h]) ++
          [fname ++ ".manifest.json"])),
       writeFile
         (removeFile
           (setFile
             (removeFile
               (addDirs fs (pathPrefixes (base ++ [sanitize_filename ds, h])))
               src)
             ((base ++ [sanitize_filename ds, h]) ++ [fname]) c)
           src)
         ((base ++ [sanitize_filename ds, h]) ++ [fname ++ ".manifest.json"])
         (FileContent.jsonDoc (serializeEntry
           { m with worker_storage_path :=
               pathToString ((base ++ [sanitize_filename ds, h]) ++ [fname]) }))) := by
  unfold store_file_and_its_manifest_locally
  rw [if_neg (by simp [hds, hh, hf])]
  rw [if_neg (by simp [isFile, hsrc])]
  have hmk2 : ((pathPrefixes (base ++ [sanitize_filename ds, h])).any
      (fun q => isFile fs q)) = false := by
    rw [List.any_eq_false]
    intro q hq
    simp [hmk q hq]
  simp only [mkdirParents, hmk2, Bool.false_eq_true, if_false]
  have hsrc1 : fileAt
      (addDirs fs (pathPrefixes (base ++ [sanitize_filename ds, h]))) src =
      some c := hsrc
  have hdir1 : isDir
      (addDirs fs (pathPrefixes (base ++ [sanitize_filename ds, h])))
      ((base ++ [sanitize_filename ds, h]) ++ [fname]) = false := by
    show ((pathPrefixes (base ++ [sanitize_filename ds, h]) ++
      fs.dirs).any (fun q => q = (base ++ [sanitize_filename ds, h]) ++ [fname]))
      = false
    rw [List.any_append]
    have h1 : ((pathPrefixes (base ++ [sanitize_filename ds, h])).any
        (fun q => q = (base ++ [sanitize_filename ds, h]) ++ [fname])) =
        false := by
      rw [List.any_eq_false]
      intro q hq
      have hlen := pathPrefixes_length _ hq
      simp only [List.length_append, List.length_cons, List.length_nil] at hlen
      simp only [decide_eq_true_eq]
      intro he
      rw [he] at hlen
      simp only [List.length_append, List.length_cons, List.length_nil] at hlen
      omega
    rw [h1]
    simp only [Bool.false_or]
    exact hdst
  simp only [moveFile, hsrc1, hdir1, Bool.false_eq_true, if_false]
  rfl


theorem sanitize_filename_ne_empty (s : String) : sanitize_filename s ≠ "" := by
  unfold sanitize_filename
  by_cases hs : s = ""
  · simp [hs]
  · rw [if_neg hs]
    cases hq : sanitizePipeline s.data with
    | nil => simp
    | cons a l =>
      simp only [List.isEmpty_cons, Bool.false_eq_true, if_false]
      intro h
      have := congrArg String.data h
      simp at this

theorem download_clean (content : List Nat) (name t : String) :
    download_to_temporary_file (cleanDownload content name t) =
      (some (tempPathOf t (sanitize_filename
          (if name ≠ "" then name else "unknown_download")),
        sanitize_filename (if name ≠ "" then name else "unknown_download"),
        [], content.length),
       some (tempPathOf t (sanitize_filename
          (if name ≠ "" then name else "unknown_download")), content)) := by
  unfold download_to_temporary_file cleanDownload
  simp [List.find?]


theorem process_success (content : List Nat) (name t : String) (fs0 : FS)
    (url ds : String) (base : Pathv) (now : PyDateTime) (hds : ds ≠ "")
    (hmk : ∀ q ∈ pathPrefixes (base ++ [sanitize_filename ds,
        generate_sha256_hash_from_bytes content]),
      isFile fs0 q = false ∧
        q ≠ tempPathOf t (sanitize_filename
          (if name ≠ "" then name else "unknown_download")))
    (hdst : isDir fs0 ((base ++ [sanitize_filename ds,
        generate_sha256_hash_from_bytes content]) ++
        [sanitize_filename (if name ≠ "" then name else "unknown_download")])
        = false) :
    core_process_scheduled_file_download (cleanDownload content name t) fs0
        noFaults url ds base now =
      ({ status := "SUCCESS",
         original_filename := some (sanitize_filename
           (if name ≠ "" then name else "unknown_download")),
         content_hash_sha256 := some (generate_sha256_hash_from_bytes content),
         worker_storage_path := some (pathToString
           ((base ++ [sanitize_filename ds,
             generate_sha256_hash_from_bytes content]) ++
            [sanitize_filename (if name ≠ "" then name else "unknown_download")])),
         worker_manifest_path := some (pathToString
           ((base ++ [sanitize_filename ds,
             generate_sha256_hash_from_bytes content]) ++
            [sanitize_filename (if name ≠ "" then name else "unknown_download")
              ++ ".manifest.json"])) },
       writeFile
         (removeFile
           (setFile
             (removeFile
               (addDirs
                 (setFile fs0
                   (tempPathOf t (sanitize_filename
                     (if name ≠ "" then name else "unknown_download")))
                   (FileContent.bytes content))
                 (pathPrefixes (base ++ [sanitize_filename ds,
                   generate_sha256_hash_from_bytes content])))
               (tempPathOf t (sanitize_filename
                 (if name ≠ "" then name else "unknown_download"))))
             ((base ++ [sanitize_filename ds,
               generate_sha256_hash_from_bytes content]) ++
              [sanitize_filename (if name ≠ "" then name else "unknown_download")])
             (FileContent.bytes content))
           (tempPathOf t (sanitize_filename
             (if name ≠ "" then name else "unknown_download"))))
         ((base ++ [sanitize_filename ds,
           generate_sha256_hash_from_bytes content]) ++
          [sanitize_filename (if name ≠ "" then name else "unknown_download")
            ++ ".manifest.json"])
         (FileContent.jsonDoc (serializeEntry
           { data_source_name := ds,
             original_filename := sanitize_filename
               (if name ≠ "" then name else "unknown_download"),
             source_url := url,
             download_timestamp_utc := now,
             content_hash_sha256 := generate_sha256_hash_from_bytes content,
             worker_storage_path := pathToString
               ((base ++ [sanitize_filename ds,
                 generate_sha256_hash_from_bytes content]) ++
                [sanitize_filename
                  (if name ≠ "" then name else "unknown_download")]),
             file_size_bytes := some (content.length : Int),
             http_headers := some [],
             content_type := none }))) := by
  have hsafe := sanitize_filename_ne_empty
    (if name ≠ "" then name else "unknown_download")
  have hhashne := generate_sha256_hash_ne_empty content
  unfold core_process_scheduled_file_download
  rw [download_clean]
  simp only []
  have hhash : generate_sha256_for_file
      (setFile fs0 (tempPathOf t (sanitize_filename
        (if name ≠ "" then name else "unknown_download")))
        (FileContent.bytes content))
      (tempPathOf t (sanitize_filename
        (if name ≠ "" then name else "unknown_download"))) =
      some (generate_sha256_hash_from_bytes content) := by
    unfold generate_sha256_for_file fileBytes
    rw [fileAt_setFile]
    simp
  simp only [hhash]
  have hsrc2 : fileAt
      (setFile fs0 (tempPathOf t (sanitize_filename
        (if name ≠ "" then name else "unknown_download")))
        (FileContent.bytes content))
      (tempPathOf t (sanitize_filename
        (if name ≠ "" then name else "unknown_download"))) =
      some (FileContent.bytes content) := by
    rw [fileAt_setFile]
    simp
  have hmk2 : ∀ q ∈ pathPrefixes (base ++ [sanitize_filename ds,
      generate_sha256_hash_from_bytes content]),
      isFile (setFile fs0 (tempPathOf t (sanitize_filename
        (if name ≠ "" then name else "unknown_download")))
        (FileContent.bytes content)) q = false := by
    intro q hq
    obtain ⟨h1, h2⟩ := hmk q hq
    show (fileAt _ q).isSome = false
    rw [fileAt_setFile, if_neg h2]
    exact h1
  have hdst2 : isDir
      (setFile fs0 (tempPathOf t (sanitize_filename
        (if name ≠ "" then name else "unknown_download")))
        (FileContent.bytes content))
      ((base ++ [sanitize_filename ds,
        generate_sha256_hash_from_bytes content]) ++
       [sanitize_filename (if name ≠ "" then name else "unknown_download")]) =
      false := hdst
  rw [store_success _ _ _ _ _ _ _ _ hds hhashne hsafe hsrc2 hmk2 hdst2]
  simp only [Option.isNone_some, Bool.or_self, Bool.false_eq_true, if_false]
  rfl


theorem fileAt_addDirs (fs : FS) (d : List Pathv) (q : Pathv) :
    fileAt (addDirs fs d) q = fileAt fs q := rfl

theorem isDir_addDirs (fs : FS) (d : List Pathv) (q : Pathv) :
    isDir (addDirs fs d) q = (d.any (fun x => x = q) || isDir fs q) := by
  simp [isDir, addDirs, List.any_append]

theorem pathPrefixes_any_eq_append (p : Pathv) (x : String) :
    ((pathPrefixes p).any (fun q => q = p ++ [x])) = false := by
  rw [List.any_eq_false]
  intro q hq
  have hlen := pathPrefixes_length _ hq
  simp only [decide_eq_true_eq]
  intro he
  rw [he] at hlen
  simp [List.length_append] at hlen

/-- C7: acquiring the same unchanged content twice is idempotent. For every
content, data-source name and URL-path filename, running
`core_process_scheduled_file_download` a second time, on the filesystem the
first run produced, succeeds again: both runs report SUCCESS, both compute
the same destination directory `cas/<sanitized source>/<content hash>/` and
the same storage and manifest paths, and the second run does not fail merely
because that directory, the stored file and the manifest already exist
(`mkdir` is exists-ok, `shutil.move` and the manifest write overwrite). -/
theorem acquire_twice_same_directory (content : List Nat)
    (ds name t1 t2 u1 u2 : String) (now1 now2 : PyDateTime)
    (hds : ds ≠ "") :
    ((core_process_scheduled_file_download (cleanDownload content name t1)
        emptyFS noFaults u1 ds ["cas"] now1).1.status = "SUCCESS") ∧
    ((core_process_scheduled_file_download (cleanDownload content name t2)
        (core_process_scheduled_file_download (cleanDownload content name t1)
          emptyFS noFaults u1 ds ["cas"] now1).2
        noFaults u2 ds ["cas"] now2).1.status = "SUCCESS") ∧
    ((core_process_scheduled_file_download (cleanDownload content name t2)
        (core_process_scheduled_file_download (cleanDownload content name t1)
          emptyFS noFaults u1 ds ["cas"] now1).2
        noFaults u2 ds ["cas"] now2).1.worker_storage_path =
      (core_process_scheduled_file_download (cleanDownload content name t1)
        emptyFS noFaults u1 ds ["cas"] now1).1.worker_storage_path) ∧
    ((core_process_scheduled_file_download (cleanDownload content name t2)
        (core_process_scheduled_file_download (cleanDownload content name t1)
          emptyFS noFaults u1 ds ["cas"] now1).2
        noFaults u2 ds ["cas"] now2).1.worker_manifest_path =
      (core_process_scheduled_file_download (cleanDownload content name t1)
        emptyFS noFaults u1 ds ["cas"] now1).1.worker_manifest_path) ∧
    ((core_process_scheduled_file_download (cleanDownload content name t1)
        emptyFS noFaults u1 ds ["cas"] now1).1.worker_storage_path =
      some (pathToString ((["cas"] ++ [sanitize_filename ds,
        generate_sha256_hash_from_bytes content]) ++
        [sanitize_filename (if name ≠ "" then name else
          "unknown_download")]))) := by
  have hheadne : ∀ (q : Pathv) (t : String),
      q ∈ pathPrefixes (["cas"] ++ [sanitize_filename ds,
        generate_sha256_hash_from_bytes content]) →
      q ≠ tempPathOf t (sanitize_filename
        (if name ≠ "" then name else "unknown_download")) := by
    intro q t hq
    obtain ⟨rest, rfl⟩ := mem_pathPrefixes_head hq
    intro h
    have h2 : ("cas" :: rest : Pathv) =
      "tmp" :: ["prefDL_" ++ t ++ "_" ++ sanitize_filename
        (if name ≠ "" then name else "unknown_download")] := h
    injection h2 with hhead _
    exact absurd hhead (by decide)
  have h1 := process_success content name t1 emptyFS u1 ds ["cas"] now1 hds
    (by
      intro q hq
      exact ⟨rfl, hheadne q t1 hq⟩)
    rfl
  have hlen4 : ∀ q ∈ pathPrefixes (["cas"] ++ [sanitize_filename ds,
      generate_sha256_hash_from_bytes content]), ∀ (x : String),
      q ≠ (["cas"] ++ [sanitize_filename ds,
        generate_sha256_hash_from_bytes content]) ++ [x] := by
    intro q hq x he
    have hlen := pathPrefixes_length _ hq
    rw [he] at hlen
    simp [List.length_append] at hlen
  have h2 := process_success content name t2
    ((core_process_scheduled_file_download (cleanDownload content name t1)
      emptyFS noFaults u1 ds ["cas"] now1).2) u2 ds ["cas"] now2 hds
    (by
      intro q hq
      refine ⟨?_, hheadne q t2 hq⟩
      rw [h1]
      dsimp only
      show (fileAt _ q).isSome = false
      simp only [writeFile]
      rw [fileAt_setFile, if_neg (hlen4 q hq _),
        fileAt_removeFile, if_neg (hheadne q t1 hq),
        fileAt_setFile, if_neg (hlen4 q hq _),
        fileAt_removeFile, if_neg (hheadne q t1 hq),
        fileAt_addDirs,
        fileAt_setFile, if_neg (hheadne q t1 hq)]
      rfl)
    (by
      rw [h1]
      dsimp only
      simp only [writeFile]
      rw [show ∀ (fs : FS) p c q, isDir (setFile fs p c) q = isDir fs q
          from fun _ _ _ _ => rfl]
      rw [show ∀ (fs : FS) p q, isDir (removeFile fs p) q = isDir fs q
          from fun _ _ _ => rfl]
      rw [show ∀ (fs : FS) p c q, isDir (setFile fs p c) q = isDir fs q
          from fun _ _ _ _ => rfl]
      rw [show ∀ (fs : FS) p q, isDir (removeFile fs p) q = isDir fs q
          from fun _ _ _ => rfl]
      rw [isDir_addDirs]
      rw [pathPrefixes_any_eq_append]
      rfl)
  rw [h2, h1]
  exact ⟨rfl, rfl, rfl, rfl, rfl⟩

/-- Concrete two-run instance of `acquire_twice_same_directory`: a three-byte
payload acquired twice for data source `demo` lands on identical paths. -/
theorem acquire_twice_same_directory_witness :
    (("demo" : String) ≠ "") ∧
    (((core_process_scheduled_file_download (cleanDownload [1, 2, 3] "data.bin" "t1")
        emptyFS noFaults "u1" "demo" ["cas"] demoNow).1.status = "SUCCESS") ∧
    ((core_process_scheduled_file_download (cleanDownload [1, 2, 3] "data.bin" "t2")
        (core_process_scheduled_file_download (cleanDownload [1, 2, 3] "data.bin" "t1")
          emptyFS noFaults "u1" "demo" ["cas"] demoNow).2
        noFaults "u2" "demo" ["cas"] demoNow).1.status = "SUCCESS") ∧
    ((core_process_scheduled_file_download (cleanDownload [1, 2, 3] "data.bin" "t2")
        (core_process_scheduled_file_download (cleanDownload [1, 2, 3] "data.bin" "t1")
          emptyFS noFaults "u1" "demo" ["cas"] demoNow).2
        noFaults "u2" "demo" ["cas"] demoNow).1.worker_storage_path =
      (core_process_scheduled_file_download (cleanDownload [1, 2, 3] "data.bin" "t1")
        emptyFS noFaults "u1" "demo" ["cas"] demoNow).1.worker_storage_path) ∧
    ((core_process_scheduled_file_download (cleanDownload [1, 2, 3] "data.bin" "t2")
        (core_process_scheduled_file_download (cleanDownload [1, 2, 3] "data.bin" "t1")
          emptyFS noFaults "u1" "demo" ["cas"] demoNow).2
        noFaults "u2" "demo" ["cas"] demoNow).1.worker_manifest_path =
      (core_process_scheduled_file_download (cleanDownload [1, 2, 3] "data.bin" "t1")
        emptyFS noFaults "u1" "demo" ["cas"] demoNow).1.worker_manifest_path) ∧
    ((core_process_scheduled_file_download (cleanDownload [1, 2, 3] "data.bin" "t1")
        emptyFS noFaults "u1" "demo" ["cas"] demoNow).1.worker_storage_path =
      some (pathToString ((["cas"] ++ [sanitize_filename "demo",
        generate_sha256_hash_from_bytes [1, 2, 3]]) ++
        [sanitize_filename (if "data.bin" ≠ "" then "data.bin" else
          "unknown_download")])))) :=
  ⟨by decide, acquire_twice_same_directory [1, 2, 3] "demo" "data.bin"
    "t1" "t2" "u1" "u2" demoNow demoNow (by decide)⟩

/-- C1: the claim says a download that fails mid-stream removes the staging
file before returning. In the code the `except` blocks of
`_download_to_temporary_file` only log and return None, and
`NamedTemporaryFile(delete=False)` leaves the file on disk: for a connection
reset after the first chunk was written, the helper returns no path while
the partially-written staging file holds the received bytes, the wrapper
returns status FAILED_DOWNLOAD, and the staging file is still present on
the filesystem after the wrapper returns. -/
theorem download_failure_leaks_staging_file :
    ((download_to_temporary_file midResetScenario).1 = none) ∧
    ((download_to_temporary_file midResetScenario).2 =
      some (["tmp", "prefDL_t1_data.bin"], [1, 2, 3])) ∧
    ((core_process_scheduled_file_download midResetScenario emptyFS noFaults
      "https://h.test/data.bin" "demo" ["cas"] demoNow).1.status =
      "FAILED_DOWNLOAD") ∧
    (isFile (core_process_scheduled_file_download midResetScenario emptyFS
      noFaults "https://h.test/data.bin" "demo" ["cas"] demoNow).2
      ["tmp", "prefDL_t1_data.bin"] = true) := by
  refine ⟨by decide, by decide, by decide, by decide⟩

/-- C5: the claim says a manifest-write failure after a successful move
yields FAILED_STORAGE. In `_store_file_and_its_manifest_locally` the
variables `final_doc_path` and `final_manifest_path` are assigned before
the move and the manifest write, and the `except` block does not reset
them, so line 113 returns both paths non-None and the wrapper reports
SUCCESS: when the manifest write raises after a successful move, the run
reports status SUCCESS while the stored file exists and its manifest does
not. -/
theorem manifest_write_failure_reports_success :
    ((core_process_scheduled_file_download okScenario emptyFS
      manifestWriteFault "https://h.test/data.bin" "demo" ["cas"]
      demoNow).1.status = "SUCCESS") ∧
    (isFile (core_process_scheduled_file_download okScenario emptyFS
      manifestWriteFault "https://h.test/data.bin" "demo" ["cas"]
      demoNow).2
      ["cas", "demo", generate_sha256_hash_from_bytes [1, 2, 3],
        "data.bin"] = true) ∧
    (isFile (core_process_scheduled_file_download okScenario emptyFS
      manifestWriteFault "https://h.test/data.bin" "demo" ["cas"]
      demoNow).2
      ["cas", "demo", generate_sha256_hash_from_bytes [1, 2, 3],
        "data.bin.manifest.json"] = false) := by
  refine ⟨by decide, by decide, by decide⟩

end AirnubSpec
